import Mathlib

/-!
# Verification of the maverick Texas Hold'em engine core

A shallow embedding of the betting core and hand evaluator of the
`maverick` poker engine (`src/maverick/game.py`, `src/maverick/state.py`,
`src/maverick/utils/scoring.py`), together with theorems settling the
frozen claims about the natural-language specification.

Modelling conventions:
* Python `int` chip quantities are modelled as `Int`.
* Python `float` hand scores are modelled as exact rationals (`ℚ`); every
  score produced by the source is a sum of decimal fractions, so the
  rational value is the ideal real value the float computation
  approximates.
* In-place mutation of the game state is modelled by explicit state
  passing; `raise ValueError` is modelled by `Except.error` carrying the
  state as of the raise, so that "no partial mutation on rejection" is a
  provable property rather than a modelling artifact.
* Fields of the source data model that no claim touches (the deck, the
  street/stage tags, hand counters) are omitted from the state record.
-/

namespace Maverick

/-- `PlayerState(Enum)` from `enums.py` (named `PlayerStateType` at use sites). -/
inductive PlayerStateType where
  | ACTIVE
  | FOLDED
  | ALL_IN
deriving DecidableEq, Repr

/-- `ActionType(Enum)` from `enums.py`. -/
inductive ActionType where
  | FOLD
  | CHECK
  | CALL
  | BET
  | RAISE
  | ALL_IN
deriving DecidableEq, Repr

/-- `HandType(Enum)` from `enums.py`, weakest to strongest. -/
inductive HandType where
  | HIGH_CARD
  | PAIR
  | TWO_PAIR
  | THREE_OF_A_KIND
  | STRAIGHT
  | FLUSH
  | FULL_HOUSE
  | FOUR_OF_A_KIND
  | STRAIGHT_FLUSH
  | ROYAL_FLUSH
deriving DecidableEq, Repr

/-- `Suit(Enum)` from `enums.py`. -/
inductive Suit where
  | HEARTS
  | SPADES
  | CLUBS
  | DIAMONDS
deriving DecidableEq, Repr

/-- `Card` from `card.py`: a rank (2..14, ace high) and a suit.  The rank
enum's numeric `.value` is modelled directly as an `Int`; `Card.Valid`
states that the rank is one of the thirteen legal values. -/
structure Card where
  rank : Int
  suit : Suit
deriving DecidableEq, Repr

/-- The rank range of the 52-card universe (`Rank` enum values 2..14). -/
def Card.Valid (c : Card) : Prop := 2 ≤ c.rank ∧ c.rank ≤ 14

instance (c : Card) : Decidable c.Valid := by
  unfold Card.Valid; infer_instance

/-- `PlayerState` from `playerstate.py`.  A player's holding is its list of
hole cards (`Holding.cards`). -/
structure PlayerState where
  seat : Option Nat
  state_type : PlayerStateType
  stack : Int
  holding : Option (List Card)
  current_bet : Int
  total_contributed : Int
  acted_this_street : Bool
deriving DecidableEq, Repr

/-- A player: identity plus its `PlayerState` (the behavioural hooks are
modelled externally, by scripts, where a claim needs them). -/
structure Player where
  id : Nat
  state : PlayerState
deriving DecidableEq, Repr

/-- `PlayerAction` from `playeraction.py`. -/
structure PlayerAction where
  player_id : Option Nat
  action_type : ActionType
  amount : Option Int
deriving DecidableEq, Repr

/-- `GameState` from `state.py`, restricted to the fields the betting core
and showdown read or write. -/
structure GameState where
  players : List Player
  current_player_index : Nat
  community_cards : List Card
  pot : Int
  current_bet : Int
  min_bet : Int
  last_raise_size : Int
  small_blind : Int
  big_blind : Int
  button_position : Nat
deriving DecidableEq, Repr

instance instDecEqExcept {ε α : Type} [DecidableEq ε] [DecidableEq α] :
    DecidableEq (Except ε α) := fun a b =>
  match a, b with
  | Except.error e, Except.error f =>
    if h : e = f then isTrue (by rw [h])
    else isFalse (by intro hh; cases hh; exact h rfl)
  | Except.error _, Except.ok _ => isFalse (by intro hh; cases hh)
  | Except.ok _, Except.error _ => isFalse (by intro hh; cases hh)
  | Except.ok x, Except.ok y =>
    if h : x = y then isTrue (by rw [h])
    else isFalse (by intro hh; cases hh; exact h rfl)

/-- `GameState.get_players_in_hand`. -/
def get_players_in_hand (s : GameState) : List Player :=
  s.players.filter (fun p => p.state.state_type ≠ PlayerStateType.FOLDED)

/-- `GameState.get_current_player`. -/
def get_current_player (s : GameState) : Option Player :=
  s.players.get? s.current_player_index

/-- `GameState.is_betting_round_complete` (`state.py`, lines 69-91). -/
def is_betting_round_complete (s : GameState) : Bool :=
  let in_hand := s.players.filter
    (fun p => p.state.state_type ≠ PlayerStateType.FOLDED)
  if in_hand.length ≤ 1 then
    true
  else
    let can_act := in_hand.filter
      (fun p => p.state.state_type = PlayerStateType.ACTIVE)
    if can_act.isEmpty then
      true
    else if ¬ (can_act.all (fun p => p.state.acted_this_street)) then
      false
    else if ¬ (can_act.all (fun p => p.state.current_bet == s.current_bet)) then
      false
    else
      true

/-- `Game._get_valid_actions` (`game.py`, lines 736-768). -/
def get_valid_actions (s : GameState) (player : Player) : List ActionType :=
  let actions := [ActionType.FOLD]
  let call_amount := s.current_bet - player.state.current_bet
  let actions := actions ++
    (if call_amount = 0 then [ActionType.CHECK]
     else if 0 < call_amount ∧ 0 < player.state.stack then [ActionType.CALL]
     else [])
  let actions := actions ++
    (if s.current_bet = 0 ∧ s.min_bet ≤ player.state.stack then [ActionType.BET]
     else [])
  let actions := actions ++
    (if 0 < s.current_bet then
      let min_raise_increment := s.last_raise_size
      let call_amount := s.current_bet - player.state.current_bet
      let total_needed_for_min_raise := call_amount + min_raise_increment
      if total_needed_for_min_raise ≤ player.state.stack then [ActionType.RAISE]
      else []
     else [])
  let actions := actions ++
    (if 0 < player.state.stack then [ActionType.ALL_IN] else [])
  actions

/-- The tuple returned by `Game._calculate_raise_components`, with the
names its callers unpack it into. -/
structure RaiseComponents where
  player_add : Int
  player_bet_after : Int
  new_table_bet : Int
  call_part : Int
  raise_size : Int
  is_all_in : Bool
deriving DecidableEq, Repr

/-- `Game._calculate_raise_components` (`game.py`, lines 521-556). -/
def calculate_raise_components (s : GameState) (pstate : PlayerState)
    (chips_to_add : Int) : RaiseComponents :=
  let stack_before := pstate.stack
  let player_bet_before := pstate.current_bet
  let old_table_bet := s.current_bet
  let player_add := min chips_to_add stack_before
  let player_bet_after := player_bet_before + player_add
  let new_table_bet := max old_table_bet player_bet_after
  let call_needed := max 0 (old_table_bet - player_bet_before)
  let call_part := min call_needed player_add
  let raise_size := new_table_bet - old_table_bet
  let is_all_in := decide (stack_before ≤ player_add)
  ⟨player_add, player_bet_after, new_table_bet, call_part, raise_size, is_all_in⟩

/-- Replace the player at `current_player_index` (mutation of the
`current_player` object in the source). -/
def update_current (s : GameState) (f : Player → Player) : GameState :=
  match s.players.get? s.current_player_index with
  | some pl => { s with players := s.players.set s.current_player_index (f pl) }
  | none => s

/-- `current_player.state.acted_this_street = True` (`game.py`, line 730). -/
def set_acted_true (s : GameState) : GameState :=
  update_current s (fun pl =>
    { pl with state := { pl.state with acted_this_street := true } })

/-- The `for p in self.state.players: if p.id != player.id and ACTIVE:
p.state.acted_this_street = False` reset loop. -/
def reset_acted_except (players : List Player) (pid : Nat) : List Player :=
  players.map (fun p =>
    if p.id ≠ pid ∧ p.state.state_type = PlayerStateType.ACTIVE then
      { p with state := { p.state with acted_this_street := false } }
    else p)

/-- The FOLD branch of `Game._register_player_action`. -/
def apply_fold (s : GameState) (cp : Player) : GameState :=
  { s with players := (s.players.set s.current_player_index
      { cp with state := { cp.state with state_type := PlayerStateType.FOLDED } }) }

/-- The CALL branch of `Game._register_player_action` (lines 597-612). -/
def apply_call (s : GameState) (cp : Player) : GameState :=
  let call_amount := s.current_bet - cp.state.current_bet
  let actual_amount := min call_amount cp.state.stack
  let ps : PlayerState := { cp.state with
    current_bet := cp.state.current_bet + actual_amount,
    total_contributed := cp.state.total_contributed + actual_amount,
    stack := cp.state.stack - actual_amount }
  let ps : PlayerState := if ps.stack = 0 then { ps with state_type := PlayerStateType.ALL_IN } else ps
  { s with players := (s.players.set s.current_player_index { cp with state := ps }),
           pot := s.pot + actual_amount }

/-- The mutating part of the BET branch of `Game._register_player_action`
(lines 620-636); its two validation errors are raised by the caller. -/
def apply_bet (s : GameState) (cp : Player) (amount : Int) : GameState :=
  let actual_amount := min amount cp.state.stack
  let ps : PlayerState := { cp.state with
    current_bet := actual_amount,
    total_contributed := cp.state.total_contributed + actual_amount,
    stack := cp.state.stack - actual_amount }
  let ps : PlayerState := if ps.stack = 0 then { ps with state_type := PlayerStateType.ALL_IN } else ps
  let players := (s.players.set s.current_player_index { cp with state := ps })
  let players := reset_acted_except players cp.id
  { s with players := players,
           pot := s.pot + actual_amount,
           current_bet := actual_amount,
           last_raise_size := actual_amount }

/-- The RAISE branch of `Game._register_player_action` (lines 642-691);
an `Except.error` carries the state as of the corresponding
`raise ValueError`. -/
def apply_raise (s : GameState) (cp : Player) (amount : Int) :
    Except GameState GameState :=
  let old_last_raise_size := s.last_raise_size
  let comps := calculate_raise_components s cp.state amount
  if comps.raise_size = 0 then
    Except.error s
  else if comps.is_all_in = false ∧ comps.raise_size < old_last_raise_size then
    Except.error s
  else
    let ps : PlayerState := { cp.state with
      current_bet := comps.player_bet_after,
      total_contributed := cp.state.total_contributed + comps.player_add,
      stack := cp.state.stack - comps.player_add }
    let ps : PlayerState :=
      if comps.is_all_in then { ps with state_type := PlayerStateType.ALL_IN } else ps
    let players := (s.players.set s.current_player_index { cp with state := ps })
    if 0 < comps.raise_size ∧ old_last_raise_size ≤ comps.raise_size then
      Except.ok { s with players := reset_acted_except players cp.id,
                         pot := s.pot + comps.player_add,
                         current_bet := comps.new_table_bet,
                         last_raise_size := comps.raise_size }
    else
      Except.ok { s with players := players,
                         pot := s.pot + comps.player_add,
                         current_bet := comps.new_table_bet }

/-- The ALL_IN branch of `Game._register_player_action` (lines 692-728). -/
def apply_all_in (s : GameState) (cp : Player) : GameState :=
  let old_table_bet := s.current_bet
  let old_last_raise_size := s.last_raise_size
  let chips_to_add := cp.state.stack
  let comps := calculate_raise_components s cp.state chips_to_add
  let ps : PlayerState := { cp.state with
    current_bet := comps.player_bet_after,
    total_contributed := cp.state.total_contributed + comps.player_add,
    stack := 0,
    state_type := PlayerStateType.ALL_IN }
  let players := (s.players.set s.current_player_index { cp with state := ps })
  if old_table_bet < comps.new_table_bet then
    if 0 < comps.raise_size ∧ old_last_raise_size ≤ comps.raise_size then
      { s with players := reset_acted_except players cp.id,
               pot := s.pot + comps.player_add,
               current_bet := comps.new_table_bet,
               last_raise_size := comps.raise_size }
    else
      { s with players := players,
               pot := s.pot + comps.player_add,
               current_bet := comps.new_table_bet }
  else
    { s with players := players, pot := s.pot + comps.player_add }

/-- `Game._register_player_action` (`game.py`, lines 558-734).
`player_id` is the `.id` of the `player` argument of the source method.
An `Except.error` models `raise ValueError` and carries the game state as
of the raise. -/
def register_player_action (s : GameState) (player_id : Nat)
    (action : PlayerAction) : Except GameState GameState :=
  let action_type := action.action_type
  let amount := action.amount.getD 0
  match get_current_player s with
  | none => Except.error s
  | some current_player =>
    if current_player.id ≠ player_id then Except.error s
    else if current_player.state.state_type ≠ PlayerStateType.ACTIVE then
      Except.error s
    else
      let valid_actions := get_valid_actions s current_player
      if action_type ∉ valid_actions then Except.error s
      else
        match action_type with
        | ActionType.FOLD =>
          Except.ok (set_acted_true (apply_fold s current_player))
        | ActionType.CHECK =>
          if current_player.state.current_bet ≠ s.current_bet then
            Except.error s
          else Except.ok (set_acted_true s)
        | ActionType.CALL =>
          Except.ok (set_acted_true (apply_call s current_player))
        | ActionType.BET =>
          if 0 < s.current_bet then Except.error s
          else if amount < s.min_bet then Except.error s
          else Except.ok (set_acted_true (apply_bet s current_player amount))
        | ActionType.RAISE =>
          match apply_raise s current_player amount with
          | Except.error e => Except.error e
          | Except.ok s2 => Except.ok (set_acted_true s2)
        | ActionType.ALL_IN =>
          Except.ok (set_acted_true (apply_all_in s current_player))

/-- One blind posting block of `Game._post_blinds`: the poster at `idx`
posts `min(blind, stack)`, entering ALL_IN when that exhausts the stack.
The source repeats this block verbatim for the small and the big blind
(`game.py`, lines 476-506). -/
def post_one_blind (s : GameState) (idx : Nat) (blind : Int) : GameState :=
  match s.players.get? idx with
  | none => s
  | some pl =>
    let amount := min blind pl.state.stack
    let pstate : PlayerState := { pl.state with
      current_bet := amount,
      total_contributed := amount,
      stack := pl.state.stack - amount }
    let pstate : PlayerState :=
      if pstate.stack = 0 then { pstate with state_type := PlayerStateType.ALL_IN }
      else pstate
    { s with players := (s.players.set idx { pl with state := pstate }),
             pot := s.pot + amount }

/-- `Game._post_blinds` (`game.py`, lines 472-519): small blind at the
seat left of the button, big blind at the next seat, then
`current_bet`/`min_bet`/`last_raise_size` are set to the big blind and the
first player to act is chosen (the button itself heads-up, otherwise three
seats left of the button). -/
def post_blinds (s : GameState) : GameState :=
  let num_players := s.players.length
  let sb_index := (s.button_position + 1) % num_players
  let s1 := post_one_blind s sb_index s.small_blind
  let bb_index := (s1.button_position + 2) % num_players
  let s2 := post_one_blind s1 bb_index s1.big_blind
  let s3 := { s2 with current_bet := s2.big_blind,
                      min_bet := s2.big_blind,
                      last_raise_size := s2.big_blind }
  if num_players = 2 then
    { s3 with current_player_index := s3.button_position }
  else
    { s3 with current_player_index := (s3.button_position + 3) % num_players }

/-- The search loop of `Game._advance_to_next_player`: up to `fuel` steps,
advance the index cyclically and stop at the first ACTIVE player that has
not acted this street. -/
def advance_loop (players : List Player) (n : Nat) : Nat → Nat → Option Nat
  | 0, _ => none
  | Nat.succ fuel, idx =>
    let idx' := (idx + 1) % n
    match players.get? idx' with
    | some pl =>
      if pl.state.state_type = PlayerStateType.ACTIVE ∧ pl.state.acted_this_street = false
      then some idx'
      else advance_loop players n fuel idx'
    | none => advance_loop players n fuel idx'

/-- `Game._advance_to_next_player` (`game.py`, lines 770-788): if no ACTIVE
player with `acted_this_street == False` is found in one full cycle, the
index is restored to its starting value. -/
def advance_to_next_player (s : GameState) : GameState :=
  match advance_loop s.players s.players.length s.players.length s.current_player_index with
  | some i => { s with current_player_index := i }
  | none => s

/-- `Game._complete_betting_round` (`game.py`, lines 790-798). -/
def complete_betting_round (s : GameState) : GameState :=
  { s with
    players := s.players.map (fun p =>
      { p with state := { p.state with current_bet := 0, acted_this_street := false } }),
    current_bet := 0,
    last_raise_size := 0 }

/-! ## Hand evaluator (`utils/scoring.py`) -/

/-- `sum(xs[i] / 100 ** (i + 1) for i in range(len(xs)))`: the positional
decay sum the scorer applies to kicker lists. -/
def decay_sum : List ℚ → ℚ
  | [] => 0
  | x :: xs => x / 100 + decay_sum xs / 100

/-- Insert `x` into `l` in front of the first element `y` with `lt x y`
(so after any elements it ties with). -/
def insert_lt (lt : α → α → Bool) (x : α) : List α → List α
  | [] => [x]
  | y :: ys => if lt x y then x :: y :: ys else y :: insert_lt lt x ys

/-- Stable insertion sort: models Python's stable `sorted`/`list.sort`,
where `lt a b` means `a` must come strictly before `b`. -/
def sort_by (lt : α → α → Bool) (l : List α) : List α :=
  l.foldl (fun acc x => insert_lt lt x acc) []

/-- `sorted(l)` for integer lists. -/
def sort_asc (l : List Int) : List Int :=
  sort_by (fun a b => a < b) l

/-- `sorted(l, reverse=True)` for integer lists. -/
def sort_desc (l : List Int) : List Int :=
  sort_by (fun a b => b < a) l

/-- `max(l)` on a list of naturals (Python `max`; the scorer only applies
it to non-empty count lists). -/
def max_nat (l : List Nat) : Nat := l.foldr Nat.max 0

/-- `_check_four_of_a_kind` (`utils/scoring.py`, lines 9-20).  The Python
loop keeps the last element whose count is 4 (`getLast?`); the `getD 0`
default corresponds to the unreachable case in which no such element
exists (the caller's `4 in rnum` guard). -/
def check_four_of_a_kind (numbers : List Int) : ℚ :=
  let four_val := ((numbers.filter (fun i => numbers.count i == 4)).getLast?).getD 0
  let kickers := numbers.filter (fun i => ¬ (numbers.count i == 4))
  let kickers := sort_desc kickers.dedup
  800 + (four_val : ℚ) + decay_sum (kickers.map (fun k : Int => (k : ℚ)))

/-- `_check_full_house` (`utils/scoring.py`, lines 23-32). -/
def check_full_house (numbers : List Int) : ℚ :=
  let triple_val := ((numbers.filter (fun i => numbers.count i == 3)).getLast?).getD 0
  let pair_val := ((numbers.filter (fun i => numbers.count i == 2)).getLast?).getD 0
  700 + (triple_val : ℚ) + (pair_val : ℚ) / 100

/-- `_check_three_of_a_kind` (`utils/scoring.py`, lines 35-46). -/
def check_three_of_a_kind (numbers : List Int) : ℚ :=
  let triple_val := ((numbers.filter (fun i => numbers.count i == 3)).getLast?).getD 0
  let kickers := numbers.filter (fun i => ¬ (numbers.count i == 3))
  let kickers := sort_desc kickers.dedup
  400 + (triple_val : ℚ) + decay_sum (kickers.map (fun k : Int => (k : ℚ)))

/-- `_check_two_pair` (`utils/scoring.py`, lines 49-61); the kicker decay
starts at `100 ** 2`, hence the extra division by 100. -/
def check_two_pair (numbers : List Int) : ℚ :=
  let pairs := sort_desc (numbers.filter (fun i => numbers.count i == 2)).dedup
  let kickers := sort_desc (numbers.filter (fun i => numbers.count i == 1)).dedup
  300 + (pairs.getD 0 0 : ℚ) + (pairs.getD 1 0 : ℚ) / 100 +
    decay_sum (kickers.map (fun k : Int => (k : ℚ))) / 100

/-- `_check_pair` (`utils/scoring.py`, lines 64-75). -/
def check_pair (numbers : List Int) : ℚ :=
  let pair_val := ((numbers.filter (fun i => numbers.count i == 2)).getLast?).getD 0
  let kickers := numbers.filter (fun i => ¬ (numbers.count i == 2))
  let kickers := sort_desc kickers.dedup
  200 + (pair_val : ℚ) + decay_sum (kickers.map (fun k : Int => (k : ℚ)))

/-- The straight-detection block of `score_hand` (`utils/scoring.py`,
lines 112-127) applied to `unique_ranks = sorted(set(rank_values))`:
returns `(is_straight, straight_high_card)`.  The scan keeps the highest
window because the loop runs in ascending order and the last match wins;
the wheel A-2-3-4-5 sets the flag and, when no higher straight was found,
a 5-high card. -/
def straight_info (u : List Int) : Bool × Int :=
  if 5 ≤ u.length then
    let scan := (List.range (u.length - 4)).foldl
      (fun acc i =>
        if u.getD (i + 4) 0 - u.getD i 0 == 4 then (true, u.getD (i + 4) 0) else acc)
      (false, 0)
    if [14, 2, 3, 4, 5].all (fun r => u.contains r) then
      (true, if scan.2 == 0 then 5 else scan.2)
    else scan
  else (false, 0)

/-- `score_hand` (`utils/scoring.py`, lines 78-188).  Float scores are
modelled as exact rationals. -/
def score_hand (hand : List Card) : HandType × ℚ :=
  let suit_values := hand.map (fun c => c.suit)
  let rank_values := hand.map (fun c => c.rank)
  let rnum := rank_values.map (fun i => rank_values.count i)
  let rlet := suit_values.map (fun i => suit_values.count i)
  let is_flush := decide (5 ≤ max_nat rlet)
  let unique_ranks := sort_asc rank_values.dedup
  let str := straight_info unique_ranks
  let is_straight := str.1
  let straight_high_card := str.2
  if is_flush && is_straight && [14, 13, 12, 11, 10].all (fun r => rank_values.contains r) then
    (HandType.ROYAL_FLUSH, 1000)
  else if is_flush && is_straight then
    (HandType.STRAIGHT_FLUSH, 900 + (straight_high_card : ℚ) / 100)
  else if rnum.contains 4 then
    (HandType.FOUR_OF_A_KIND, check_four_of_a_kind rank_values)
  else if rnum.contains 3 && rnum.contains 2 then
    (HandType.FULL_HOUSE, check_full_house rank_values)
  else if is_flush then
    (HandType.FLUSH, 600 + decay_sum ((sort_desc rank_values).map (fun k : Int => (k : ℚ))))
  else if is_straight then
    (HandType.STRAIGHT, 500 + (straight_high_card : ℚ) / 100)
  else if rnum.contains 3 then
    (HandType.THREE_OF_A_KIND, check_three_of_a_kind rank_values)
  else if 4 ≤ rnum.count 2 then
    (HandType.TWO_PAIR, check_two_pair rank_values)
  else if rnum.contains 2 then
    (HandType.PAIR, check_pair rank_values)
  else
    (HandType.HIGH_CARD, 100 + decay_sum ((sort_desc rank_values).map (fun k : Int => (k : ℚ))))

/-- All `k`-element sublists, in order. -/
def combinations : Nat → List α → List (List α)
  | 0, _ => [[]]
  | _ + 1, [] => []
  | k + 1, x :: xs => (combinations k xs).map (fun c => x :: c) ++ combinations (k + 1) xs

/-- Modelled from the spec: `find_highest_scoring_hand` is imported by
`game.py` from `maverick.utils` but its definition is not in the source
tree (only `score_hand` is).  Per the spec's showdown description, it
computes the best 5-card score from the player's 2 hole cards plus the 5
community cards (21 combinations); only the returned `best_score`
component feeds the winner computation, so only it is modelled. -/
def find_highest_scoring_hand (hole community : List Card) : ℚ :=
  ((combinations 5 (hole ++ community)).map (fun h => (score_hand h).2)).foldr max 0

/-- `Game._handle_showdown` (`game.py`, lines 845-904).  Winner stacks are
credited by player id (the source mutates the player objects; ids are
unique at a table).  The `assert len(community_cards) == 5` of the
multi-player branch is a precondition; the embedding returns the winners
of the scored comparison on whatever board is present. -/
def handle_showdown (s : GameState) : GameState :=
  let players_in_hand := get_players_in_hand s
  if players_in_hand.length == 1 then
    match players_in_hand.head? with
    | some winner =>
      { s with players := s.players.map (fun p =>
          if p.id = winner.id then
            { p with state := { p.state with stack := p.state.stack + s.pot } }
          else p) }
    | none => s
  else
    let player_scores := players_in_hand.filterMap (fun p =>
      p.state.holding.map (fun h => (p, find_highest_scoring_hand h s.community_cards)))
    let player_scores := sort_by (fun a b => decide (b.2 < a.2)) player_scores
    let highest_score := ((player_scores.head?).map (fun x => x.2)).getD 0
    let winners := (player_scores.filter (fun x => x.2 == highest_score)).map (fun x => x.1)
    let winners_sorted := sort_by
      (fun p q => decide (p.state.seat.getD 0 < q.state.seat.getD 0)) winners
    let pot_share := s.pot.fdiv winners.length
    let remainder := s.pot.fmod winners.length
    let awards := winners_sorted.enum.map
      (fun x => (x.2.id, pot_share + if (x.1 : ℤ) < remainder then 1 else 0))
    { s with players := s.players.map (fun p =>
        match awards.lookup p.id with
        | some amt => { p with state := { p.state with stack := p.state.stack + amt } }
        | none => p) }

/-! ## Scripted event loop

The source's event pump (`Game.step` / `Game._handle_event`) drives the
PLAYER_ACTION loop: while the betting round is not complete it advances to
the next player, solicits an action (`Game._take_action_from_current_player`,
with FOLD substituted on an invalid action) and re-enqueues PLAYER_ACTION;
when complete it runs `Game._complete_betting_round` and enqueues
BETTING_ROUND_COMPLETED.  Player agents are modelled as scripts: a queue of
actions per player id, in place of `decide_action`. -/

/-- Per-player scripted actions (the `MockPlayer` pattern of the source's
test-suite): each entry maps a player id to its queued actions. -/
structure Scripts where
  entries : List (Nat × List PlayerAction)
deriving DecidableEq, Repr

/-- Pop the next scripted action for player `pid`. -/
def pop_action (sc : Scripts) (pid : Nat) : Option PlayerAction × Scripts :=
  let a := (sc.entries.lookup pid).bind List.head?
  let entries := sc.entries.map (fun e => if e.1 = pid then (e.1, e.2.tail) else e)
  (a, ⟨entries⟩)

/-- `Game._take_action_from_current_player` (`game.py`, lines 424-461):
skip when there is no current player or the current player cannot act;
otherwise take the scripted action, substituting FOLD if it is rejected.
(An exhausted script is unreachable in the runs proved below.) -/
def take_action_from_current_player (s : GameState) (sc : Scripts) :
    GameState × Scripts :=
  match get_current_player s with
  | none => (s, sc)
  | some current_player =>
    if current_player.state.state_type ≠ PlayerStateType.ACTIVE then (s, sc)
    else
      match pop_action sc current_player.id with
      | (none, sc') => (s, sc')
      | (some action, sc') =>
        match register_player_action s current_player.id action with
        | Except.ok s' => (s', sc')
        | Except.error _ =>
          match register_player_action s current_player.id
              ⟨some current_player.id, ActionType.FOLD, none⟩ with
          | Except.ok s' => (s', sc')
          | Except.error _ => (s, sc')

/-- Result of running the PLAYER_ACTION loop with bounded fuel. -/
inductive LoopResult where
  | completed (s : GameState)
  | out_of_fuel (s : GameState) (sc : Scripts)
deriving DecidableEq, Repr

/-- Whether the loop reached BETTING_ROUND_COMPLETED. -/
def LoopResult.is_completed : LoopResult → Bool
  | completed _ => true
  | out_of_fuel _ _ => false

/-- The PLAYER_ACTION case of `Game._handle_event` (`game.py`, lines
222-229), iterated with fuel: if the round is complete, complete it and
stop (BETTING_ROUND_COMPLETED); otherwise advance to the next player, take
an action, and process the re-enqueued PLAYER_ACTION. -/
def run_betting : Nat → GameState → Scripts → LoopResult
  | 0, s, sc => LoopResult.out_of_fuel s sc
  | Nat.succ fuel, s, sc =>
    if is_betting_round_complete s then
      LoopResult.completed (complete_betting_round s)
    else
      let s1 := advance_to_next_player s
      let step := take_action_from_current_player s1 sc
      run_betting fuel step.1 step.2

/-- The POST_BLINDS case of `Game._handle_event` (`game.py`, lines
217-220) followed by the PLAYER_ACTION loop: the first player acts, then
PLAYER_ACTION events are processed until the round completes or the fuel
runs out. -/
def run_preflop_actions (fuel : Nat) (s : GameState) (sc : Scripts) : LoopResult :=
  let step := take_action_from_current_player s sc
  run_betting fuel step.1 step.2

/-! ## C3: the round-complete predicate matches the spec's case analysis -/

/-- The spec's formulation of round completeness (§4.3 "Round-complete
predicate" and claim C3): at most one player still in the hand, or no
ACTIVE (neither folded nor all-in) player, or every ACTIVE player has
acted this street and matched the table bet. -/
def spec_betting_round_complete (s : GameState) : Prop :=
  (s.players.filter (fun p => p.state.state_type ≠ PlayerStateType.FOLDED)).length ≤ 1 ∨
  (s.players.filter (fun p => p.state.state_type ≠ PlayerStateType.FOLDED ∧
      p.state.state_type ≠ PlayerStateType.ALL_IN)).length = 0 ∨
  (∀ p ∈ s.players, p.state.state_type = PlayerStateType.ACTIVE →
      p.state.acted_this_street = true ∧ p.state.current_bet = s.current_bet)

/-! ## C6: chip conservation -/

/-- The conserved quantity: the sum of all player stacks plus the pot. -/
def chip_sum (s : GameState) : Int :=
  (s.players.map (fun p => p.state.stack)).sum + s.pot

/-- The `chips_to_add` value the two raise-like branches feed to
`_calculate_raise_components`: the action amount for RAISE, the whole
stack for ALL_IN. -/
def c2_chips_to_add (t : ActionType) (amount : Option Int) (cp : Player) : Int :=
  match t with
  | ActionType.RAISE => amount.getD 0
  | ActionType.ALL_IN => cp.state.stack
  | _ => 0

/-- Witness scenario for C2: three players, blinds 10/20 already matched at
20 by the first two; the big blind (10 chips behind) is to act. -/
def c2w_s : GameState :=
  ⟨[⟨0, ⟨some 0, PlayerStateType.ACTIVE, 980, none, 20, 20, true⟩⟩,
    ⟨1, ⟨some 1, PlayerStateType.ACTIVE, 980, none, 20, 20, true⟩⟩,
    ⟨2, ⟨some 2, PlayerStateType.ACTIVE, 10, none, 20, 20, false⟩⟩],
   2, [], 50, 20, 20, 20, 10, 20, 0⟩

/-- The player to act in `c2w_s`. -/
def c2w_p2 : Player := ⟨2, ⟨some 2, PlayerStateType.ACTIVE, 10, none, 20, 20, false⟩⟩

/-- The state after the big blind's short all-in in `c2w_s`. -/
def c2w_s2 : GameState :=
  ⟨[⟨0, ⟨some 0, PlayerStateType.ACTIVE, 980, none, 20, 20, true⟩⟩,
    ⟨1, ⟨some 1, PlayerStateType.ACTIVE, 980, none, 20, 20, true⟩⟩,
    ⟨2, ⟨some 2, PlayerStateType.ALL_IN, 0, none, 30, 30, true⟩⟩],
   2, [], 60, 30, 20, 20, 10, 20, 0⟩

/-! ## C10: requested amounts are capped at the stack; all-in raises skip
the minimum-raise check -/

/-- The chips a chip-committing action asks to move, before capping: the
amount still to call for CALL, the action amount for BET and RAISE, the
whole stack for ALL_IN. -/
def c10_requested (t : ActionType) (amount : Option Int) (s : GameState)
    (cp : Player) : Int :=
  match t with
  | ActionType.CALL => s.current_bet - cp.state.current_bet
  | ActionType.BET => amount.getD 0
  | ActionType.RAISE => amount.getD 0
  | ActionType.ALL_IN => cp.state.stack
  | _ => 0

/-- Witness scenario for C10, first conjunct: a 5-chip stack facing a
20-chip bet calls. -/
def c10w_s : GameState :=
  ⟨[⟨0, ⟨some 0, PlayerStateType.ACTIVE, 5, none, 0, 0, false⟩⟩,
    ⟨1, ⟨some 1, PlayerStateType.ACTIVE, 980, none, 20, 20, true⟩⟩],
   0, [], 30, 20, 20, 20, 10, 20, 1⟩

/-- The caller in `c10w_s`. -/
def c10w_p : Player := ⟨0, ⟨some 0, PlayerStateType.ACTIVE, 5, none, 0, 0, false⟩⟩

/-- The state after the capped call in `c10w_s`. -/
def c10w_s2 : GameState :=
  ⟨[⟨0, ⟨some 0, PlayerStateType.ALL_IN, 0, none, 5, 5, true⟩⟩,
    ⟨1, ⟨some 1, PlayerStateType.ACTIVE, 980, none, 20, 20, true⟩⟩],
   0, [], 35, 20, 20, 20, 10, 20, 1⟩

/-- Witness scenario for C10, second conjunct: a 45-chip stack raises by
its whole stack (all-in) over a 20-chip bet with minimum raise 20. -/
def c10w_rs : GameState :=
  ⟨[⟨0, ⟨some 0, PlayerStateType.ACTIVE, 980, none, 20, 20, true⟩⟩,
    ⟨1, ⟨some 1, PlayerStateType.ACTIVE, 45, none, 0, 0, false⟩⟩],
   1, [], 30, 20, 20, 20, 10, 20, 0⟩

/-- The raiser in `c10w_rs`. -/
def c10w_rp : Player := ⟨1, ⟨some 1, PlayerStateType.ACTIVE, 45, none, 0, 0, false⟩⟩

/-! ## C8: conditions for accepting a BET -/

/-- C8 counterexample state: no bet to face (`current_bet = 0`), big blind
20, and the acting player holds only 15 chips. -/
def c8w_s : GameState :=
  ⟨[⟨0, ⟨some 0, PlayerStateType.ACTIVE, 15, none, 0, 0, false⟩⟩,
    ⟨1, ⟨some 1, PlayerStateType.ACTIVE, 980, none, 0, 0, false⟩⟩],
   0, [], 30, 0, 20, 0, 10, 20, 1⟩

/-! ## C1: the 3-handed short-all-in scenario loops forever -/

/-- A freshly seated player with everything reset (as `_start_new_hand`
leaves it). -/
def init_player (i : Nat) (stack : Int) : Player :=
  ⟨i, ⟨some i, PlayerStateType.ACTIVE, stack, none, 0, 0, false⟩⟩

/-- C1 scenario: 3-handed, blinds 10/20, button at seat 0 (so seat 0 is
UTG pre-flop), stacks 1000/1000/30. -/
def c1_initial : GameState :=
  ⟨[init_player 0 1000, init_player 1 1000, init_player 2 30],
   0, [], 0, 0, 0, 0, 10, 20, 0⟩

/-- C1 scripts: UTG calls, SB calls, BB (10 behind) goes all-in. -/
def c1_scripts : Scripts :=
  ⟨[(0, [⟨some 0, ActionType.CALL, none⟩]),
    (1, [⟨some 1, ActionType.CALL, none⟩]),
    (2, [⟨some 2, ActionType.ALL_IN, none⟩])]⟩

/-- The state after posting blinds in the C1 scenario. -/
def c1_after_blinds : GameState := post_blinds c1_initial

/-- The state/script pair after UTG's call (the POST_BLINDS handling). -/
def c1_step0 : GameState × Scripts :=
  take_action_from_current_player c1_after_blinds c1_scripts

/-- The state the C1 scenario reaches after BB's non-reopening all-in:
everyone has acted, UTG and SB are 10 short of the 30 table bet, and the
current player (BB) is ALL_IN. -/
def c1_stuck : GameState :=
  ⟨[⟨0, ⟨some 0, PlayerStateType.ACTIVE, 980, none, 20, 20, true⟩⟩,
    ⟨1, ⟨some 1, PlayerStateType.ACTIVE, 980, none, 20, 20, true⟩⟩,
    ⟨2, ⟨some 2, PlayerStateType.ALL_IN, 0, none, 30, 30, true⟩⟩],
   2, [], 70, 30, 20, 20, 10, 20, 0⟩

/-- The exhausted scripts in the stuck state. -/
def c1_stuck_scripts : Scripts := ⟨[(0, []), (1, []), (2, [])]⟩

/-! ## C5: the heads-up fold walkover -/

/-- C5 scenario: heads-up, blinds 10/20, both stacks 1000, button at
seat 0. -/
def c5_initial : GameState :=
  ⟨[init_player 0 1000, init_player 1 1000], 0, [], 0, 0, 0, 0, 10, 20, 0⟩

/-- C5 scripts: the button folds; the other player never acts. -/
def c5_scripts : Scripts :=
  ⟨[(0, [⟨some 0, ActionType.FOLD, none⟩]), (1, [])]⟩

/-- The completed-betting state of the C5 scenario after the button's
fold. -/
def c5_completed : GameState :=
  ⟨[⟨0, ⟨some 0, PlayerStateType.FOLDED, 980, none, 0, 20, false⟩⟩,
    ⟨1, ⟨some 1, PlayerStateType.ACTIVE, 990, none, 0, 10, false⟩⟩],
   0, [], 30, 0, 20, 0, 10, 20, 0⟩

/-! ## C9: scoring bounds and hand-class separation -/

/-- Position of a hand class in the spec's ordering
HIGH_CARD < PAIR < ... < ROYAL_FLUSH. -/
def class_rank : HandType → Nat
  | HandType.HIGH_CARD => 0
  | HandType.PAIR => 1
  | HandType.TWO_PAIR => 2
  | HandType.THREE_OF_A_KIND => 3
  | HandType.STRAIGHT => 4
  | HandType.FLUSH => 5
  | HandType.FULL_HOUSE => 6
  | HandType.FOUR_OF_A_KIND => 7
  | HandType.STRAIGHT_FLUSH => 8
  | HandType.ROYAL_FLUSH => 9

/-- The scorer's base value for each class (100, 200, ..., 1000). -/
def class_base (t : HandType) : ℚ := 100 * (class_rank t + 1)

/-- C4 scenario board: a royal flush on the board, so that both players
play the board and tie at the top score. -/
def c4_board : List Card :=
  [⟨10, Suit.SPADES⟩, ⟨11, Suit.SPADES⟩, ⟨12, Suit.SPADES⟩,
   ⟨13, Suit.SPADES⟩, ⟨14, Suit.SPADES⟩]

/-- C4 scenario, first player (seat 0, the button). -/
def c4_p0 : Player :=
  ⟨0, ⟨some 0, PlayerStateType.ACTIVE, 0,
    some [⟨2, Suit.CLUBS⟩, ⟨3, Suit.CLUBS⟩], 0, 0, false⟩⟩

/-- C4 scenario, second player (seat 1, left of the button). -/
def c4_p1 : Player :=
  ⟨1, ⟨some 1, PlayerStateType.ACTIVE, 0,
    some [⟨2, Suit.DIAMONDS⟩, ⟨3, Suit.DIAMONDS⟩], 0, 0, false⟩⟩

/-- C4 scenario: two tied players, pot 101, button at seat 0. -/
def c4_state : GameState :=
  ⟨[c4_p0, c4_p1], 0, c4_board, 101, 0, 20, 0, 10, 20, 0⟩

/-- The C4 scenario after the showdown: seat 0 (the button) received 51
chips and seat 1 received 50. -/
def c4_final : GameState :=
  ⟨[⟨0, ⟨some 0, PlayerStateType.ACTIVE, 51,
      some [⟨2, Suit.CLUBS⟩, ⟨3, Suit.CLUBS⟩], 0, 0, false⟩⟩,
    ⟨1, ⟨some 1, PlayerStateType.ACTIVE, 50,
      some [⟨2, Suit.DIAMONDS⟩, ⟨3, Suit.DIAMONDS⟩], 0, 0, false⟩⟩],
   0, c4_board, 101, 0, 20, 0, 10, 20, 0⟩

/-! ## Helper lemmas -/

theorem state_type_active_iff (t : PlayerStateType) :
    t = PlayerStateType.ACTIVE ↔
      (t ≠ PlayerStateType.FOLDED ∧ t ≠ PlayerStateType.ALL_IN) := by
  cases t <;> simp

theorem filter_can_act_eq (l : List Player) :
    ((l.filter (fun p => p.state.state_type ≠ PlayerStateType.FOLDED)).filter
      (fun p => p.state.state_type = PlayerStateType.ACTIVE))
    = l.filter (fun p => p.state.state_type = PlayerStateType.ACTIVE) := by
  rw [List.filter_filter]
  apply List.filter_congr
  intro p _
  cases hx : p.state.state_type <;> simp [hx]

theorem is_brc_iff (s : GameState) :
    is_betting_round_complete s = true ↔
      ((s.players.filter (fun p => p.state.state_type ≠ PlayerStateType.FOLDED)).length ≤ 1 ∨
       (s.players.filter (fun p => p.state.state_type = PlayerStateType.ACTIVE)).length = 0 ∨
       ((∀ p ∈ s.players.filter (fun p => p.state.state_type = PlayerStateType.ACTIVE),
          p.state.acted_this_street = true) ∧
        (∀ p ∈ s.players.filter (fun p => p.state.state_type = PlayerStateType.ACTIVE),
          p.state.current_bet = s.current_bet))) := by
  unfold is_betting_round_complete
  dsimp only
  rw [filter_can_act_eq]
  by_cases h1 :
      (s.players.filter (fun p => p.state.state_type ≠ PlayerStateType.FOLDED)).length ≤ 1
  · rw [if_pos h1]
    exact iff_of_true rfl (Or.inl h1)
  · rw [if_neg h1]
    by_cases h2 :
        (s.players.filter (fun p => p.state.state_type = PlayerStateType.ACTIVE)).isEmpty = true
    · rw [if_pos h2]
      exact iff_of_true rfl
        (Or.inr (Or.inl (List.isEmpty_iff_length_eq_zero.mp h2)))
    · rw [if_neg h2]
      by_cases h3 : (s.players.filter
          (fun p => p.state.state_type = PlayerStateType.ACTIVE)).all
          (fun p => p.state.acted_this_street) = true
      · rw [h3, if_neg (by simp)]
        by_cases h4 : (s.players.filter
            (fun p => p.state.state_type = PlayerStateType.ACTIVE)).all
            (fun p => p.state.current_bet == s.current_bet) = true
        · rw [h4, if_neg (by simp)]
          refine iff_of_true rfl (Or.inr (Or.inr ⟨?_, ?_⟩))
          · intro p hp
            exact List.all_eq_true.mp h3 p hp
          · intro p hp
            have := List.all_eq_true.mp h4 p hp
            simpa using this
        · rw [Bool.not_eq_true] at h4
          rw [h4, if_pos (by simp)]
          refine iff_of_false (by simp) ?_
          rintro (hc | hc | hc)
          · exact h1 hc
          · exact h2 (List.isEmpty_iff_length_eq_zero.mpr hc)
          · have : (s.players.filter
                (fun p => p.state.state_type = PlayerStateType.ACTIVE)).all
                (fun p => p.state.current_bet == s.current_bet) = true := by
              rw [List.all_eq_true]
              intro p hp
              simpa using hc.2 p hp
            rw [h4] at this
            cases this
      · rw [Bool.not_eq_true] at h3
        rw [h3, if_pos (by simp)]
        refine iff_of_false (by simp) ?_
        rintro (hc | hc | hc)
        · exact h1 hc
        · exact h2 (List.isEmpty_iff_length_eq_zero.mpr hc)
        · have : (s.players.filter
              (fun p => p.state.state_type = PlayerStateType.ACTIVE)).all
              (fun p => p.state.acted_this_street) = true := by
            rw [List.all_eq_true]
            intro p hp
            exact hc.1 p hp
          rw [h3] at this
          cases this

/-- C3 (confirmed): `GameState.is_betting_round_complete` returns true iff
the number of not-FOLDED players is ≤ 1, or the number of ACTIVE players
is zero, or every ACTIVE player has acted this street and has its bet
equal to the game's `current_bet`; otherwise it returns false. -/
theorem c3_betting_round_complete_matches_spec (s : GameState) :
    is_betting_round_complete s = true ↔ spec_betting_round_complete s := by
  rw [is_brc_iff]
  unfold spec_betting_round_complete
  have hfilter :
      (s.players.filter (fun p => p.state.state_type ≠ PlayerStateType.FOLDED ∧
        p.state.state_type ≠ PlayerStateType.ALL_IN))
      = s.players.filter (fun p => p.state.state_type = PlayerStateType.ACTIVE) := by
    apply List.filter_congr
    intro p _
    cases hx : p.state.state_type <;> simp [hx]
  rw [hfilter]
  apply or_congr Iff.rfl
  apply or_congr Iff.rfl
  constructor
  · rintro ⟨hact, hbet⟩ p hp hpact
    have hmem : p ∈ s.players.filter
        (fun p => p.state.state_type = PlayerStateType.ACTIVE) := by
      simp [List.mem_filter, hp, hpact]
    exact ⟨hact p hmem, hbet p hmem⟩
  · intro h
    constructor
    · intro p hp
      rw [List.mem_filter] at hp
      exact (h p hp.1 (by simpa using hp.2)).1
    · intro p hp
      rw [List.mem_filter] at hp
      exact (h p hp.1 (by simpa using hp.2)).2

theorem sum_map_set (l : List Player) (i : Nat) (p q : Player)
    (h : l.get? i = some p) :
    ((l.set i q).map (fun x => x.state.stack)).sum
      = (l.map (fun x => x.state.stack)).sum + q.state.stack - p.state.stack := by
  induction l generalizing i with
  | nil => cases h
  | cons x xs ih =>
    cases i with
    | zero =>
      have hx : x = p := by simpa using h
      subst hx
      simp [List.set]
      ring
    | succ n =>
      have h' : xs.get? n = some p := by simpa using h
      simp only [List.set, List.map_cons, List.sum_cons, ih n h']
      ring

theorem sum_map_stack_preserved (f : Player → Player)
    (hf : ∀ p, (f p).state.stack = p.state.stack) (l : List Player) :
    ((l.map f).map (fun x => x.state.stack)).sum
      = (l.map (fun x => x.state.stack)).sum := by
  induction l with
  | nil => rfl
  | cons x xs ih => simp only [List.map_cons, List.sum_cons, hf x, ih]

theorem reset_acted_stack (players : List Player) (pid : Nat) :
    ((reset_acted_except players pid).map (fun x => x.state.stack)).sum
      = (players.map (fun x => x.state.stack)).sum := by
  unfold reset_acted_except
  apply sum_map_stack_preserved
  intro p
  split_ifs <;> rfl

theorem chip_sum_set_acted_true (s : GameState) :
    chip_sum (set_acted_true s) = chip_sum s := by
  unfold set_acted_true update_current
  cases hg : s.players.get? s.current_player_index with
  | none => rfl
  | some pl =>
    unfold chip_sum
    dsimp only
    rw [sum_map_set _ _ _ _ hg]
    ring

theorem chip_sum_apply_fold (s : GameState) (cp : Player)
    (h : s.players.get? s.current_player_index = some cp) :
    chip_sum (apply_fold s cp) = chip_sum s := by
  unfold apply_fold chip_sum
  dsimp only
  rw [sum_map_set _ _ _ _ h]
  ring

theorem chip_sum_apply_call (s : GameState) (cp : Player)
    (h : s.players.get? s.current_player_index = some cp) :
    chip_sum (apply_call s cp) = chip_sum s := by
  unfold apply_call chip_sum
  dsimp only
  split_ifs <;> (rw [sum_map_set _ _ _ _ h]; dsimp only; ring)

theorem chip_sum_apply_bet (s : GameState) (cp : Player) (amount : Int)
    (h : s.players.get? s.current_player_index = some cp) :
    chip_sum (apply_bet s cp amount) = chip_sum s := by
  unfold apply_bet chip_sum
  dsimp only
  split_ifs <;>
    (rw [reset_acted_stack, sum_map_set _ _ _ _ h]; dsimp only; ring)

theorem chip_sum_apply_raise (s : GameState) (cp : Player) (amount : Int)
    (s2 : GameState) (h : s.players.get? s.current_player_index = some cp)
    (hr : apply_raise s cp amount = Except.ok s2) :
    chip_sum s2 = chip_sum s := by
  unfold apply_raise at hr
  dsimp only at hr
  split_ifs at hr <;>
    first
      | exact Except.noConfusion hr
      | (rw [← Except.ok.inj hr]; unfold chip_sum; dsimp only;
         rw [reset_acted_stack, sum_map_set _ _ _ _ h]; dsimp only; ring)
      | (rw [← Except.ok.inj hr]; unfold chip_sum; dsimp only;
         rw [sum_map_set _ _ _ _ h]; dsimp only; ring)

theorem player_add_all_in (s : GameState) (ps : PlayerState) :
    (calculate_raise_components s ps ps.stack).player_add = ps.stack := by
  unfold calculate_raise_components
  exact min_self _

theorem chip_sum_apply_all_in (s : GameState) (cp : Player)
    (h : s.players.get? s.current_player_index = some cp) :
    chip_sum (apply_all_in s cp) = chip_sum s := by
  unfold apply_all_in chip_sum
  dsimp only
  rw [player_add_all_in]
  split_ifs <;>
    (first
      | (rw [reset_acted_stack, sum_map_set _ _ _ _ h]; dsimp only; ring)
      | (rw [sum_map_set _ _ _ _ h]; dsimp only; ring))

theorem chip_sum_post_one_blind (s : GameState) (idx : Nat) (blind : Int) :
    chip_sum (post_one_blind s idx blind) = chip_sum s := by
  unfold post_one_blind
  cases hg : s.players.get? idx with
  | none => rfl
  | some pl =>
    unfold chip_sum
    dsimp only
    split_ifs <;> (rw [sum_map_set _ _ _ _ hg]; dsimp only; ring)

theorem chip_sum_post_blinds (s : GameState) :
    chip_sum (post_blinds s) = chip_sum s := by
  unfold post_blinds
  dsimp only
  have h2 := chip_sum_post_one_blind
    (post_one_blind s ((s.button_position + 1) % s.players.length) s.small_blind)
    (((post_one_blind s ((s.button_position + 1) % s.players.length)
        s.small_blind).button_position + 2) % s.players.length)
    ((post_one_blind s ((s.button_position + 1) % s.players.length)
        s.small_blind).big_blind)
  have h1 := chip_sum_post_one_blind s
    ((s.button_position + 1) % s.players.length) s.small_blind
  unfold chip_sum at h1 h2 ⊢
  split_ifs <;> (dsimp only; rw [h2, h1])

/-- C6 (confirmed): every accepted player action (FOLD, CHECK, CALL, BET,
RAISE, ALL_IN) and blind posting within a hand leaves the sum of all
player stacks plus the pot unchanged. -/
theorem c6_chip_conservation :
    (∀ (s : GameState) (player_id : Nat) (action : PlayerAction) (s2 : GameState),
        register_player_action s player_id action = Except.ok s2 →
        chip_sum s2 = chip_sum s) ∧
    (∀ s : GameState, chip_sum (post_blinds s) = chip_sum s) := by
  constructor
  · intro s pid a s2 h
    unfold register_player_action at h
    cases hg : get_current_player s with
    | none => rw [hg] at h; exact Except.noConfusion h
    | some cp =>
      have hg' : s.players.get? s.current_player_index = some cp := hg
      rw [hg] at h
      dsimp only at h
      by_cases hid : cp.id ≠ pid
      · rw [if_pos hid] at h; exact Except.noConfusion h
      · rw [if_neg hid] at h
        by_cases hact : cp.state.state_type ≠ PlayerStateType.ACTIVE
        · rw [if_pos hact] at h; exact Except.noConfusion h
        · rw [if_neg hact] at h
          by_cases hval : a.action_type ∉ get_valid_actions s cp
          · rw [if_pos hval] at h; exact Except.noConfusion h
          · rw [if_neg hval] at h
            cases ha : a.action_type <;> rw [ha] at h <;> dsimp only at h
            · rw [← Except.ok.inj h, chip_sum_set_acted_true,
                chip_sum_apply_fold s cp hg']
            · by_cases hchk : cp.state.current_bet ≠ s.current_bet
              · rw [if_pos hchk] at h; exact Except.noConfusion h
              · rw [if_neg hchk] at h
                rw [← Except.ok.inj h, chip_sum_set_acted_true]
            · rw [← Except.ok.inj h, chip_sum_set_acted_true,
                chip_sum_apply_call s cp hg']
            · by_cases hb1 : 0 < s.current_bet
              · rw [if_pos hb1] at h; exact Except.noConfusion h
              · rw [if_neg hb1] at h
                by_cases hb2 : a.amount.getD 0 < s.min_bet
                · rw [if_pos hb2] at h; exact Except.noConfusion h
                · rw [if_neg hb2] at h
                  rw [← Except.ok.inj h, chip_sum_set_acted_true,
                    chip_sum_apply_bet s cp _ hg']
            · cases hr : apply_raise s cp (a.amount.getD 0) with
              | error e2 => rw [hr] at h; exact Except.noConfusion h
              | ok s3 =>
                rw [hr] at h
                dsimp only at h
                rw [← Except.ok.inj h, chip_sum_set_acted_true,
                  chip_sum_apply_raise s cp _ s3 hg' hr]
            · rw [← Except.ok.inj h, chip_sum_set_acted_true,
                chip_sum_apply_all_in s cp hg']
  · intro s
    exact chip_sum_post_blinds s

/-- Witness for C6: a concrete accepted CHECK and a concrete blind
posting, both conserving chips. -/
theorem c6_witness :
    chip_sum (set_acted_true
        ⟨[⟨0, ⟨some 0, PlayerStateType.ACTIVE, 100, none, 0, 0, false⟩⟩], 0, [], 0,
          0, 20, 0, 10, 20, 0⟩)
      = chip_sum
        ⟨[⟨0, ⟨some 0, PlayerStateType.ACTIVE, 100, none, 0, 0, false⟩⟩], 0, [], 0,
          0, 20, 0, 10, 20, 0⟩ ∧
    chip_sum (post_blinds
        ⟨[⟨0, ⟨some 0, PlayerStateType.ACTIVE, 100, none, 0, 0, false⟩⟩], 0, [], 0,
          0, 20, 0, 10, 20, 0⟩)
      = chip_sum
        ⟨[⟨0, ⟨some 0, PlayerStateType.ACTIVE, 100, none, 0, 0, false⟩⟩], 0, [], 0,
          0, 20, 0, 10, 20, 0⟩ :=
  ⟨c6_chip_conservation.1 _ 0 ⟨some 0, ActionType.CHECK, none⟩ _ (by decide),
   c6_chip_conservation.2 _⟩

/-! ## C2: the reopen rule for RAISE and ALL_IN -/

theorem set_acted_true_pot (x : GameState) : (set_acted_true x).pot = x.pot := by
  unfold set_acted_true update_current
  cases x.players.get? x.current_player_index <;> rfl

theorem set_acted_true_current_bet (x : GameState) :
    (set_acted_true x).current_bet = x.current_bet := by
  unfold set_acted_true update_current
  cases x.players.get? x.current_player_index <;> rfl

theorem set_acted_true_lrs (x : GameState) :
    (set_acted_true x).last_raise_size = x.last_raise_size := by
  unfold set_acted_true update_current
  cases x.players.get? x.current_player_index <;> rfl

theorem set_acted_true_get?_ne (x : GameState) (j : Nat)
    (hj : j ≠ x.current_player_index) :
    (set_acted_true x).players.get? j = x.players.get? j := by
  unfold set_acted_true update_current
  cases hg : x.players.get? x.current_player_index with
  | none => rfl
  | some pl =>
    dsimp only
    exact List.get?_set_ne _ _ (fun hh => hj hh.symm)

theorem reset_acted_get? (players : List Player) (pid : Nat) (j : Nat) :
    (reset_acted_except players pid).get? j
      = (players.get? j).map (fun p =>
          if p.id ≠ pid ∧ p.state.state_type = PlayerStateType.ACTIVE then
            { p with state := { p.state with acted_this_street := false } }
          else p) := by
  unfold reset_acted_except
  exact List.get?_map _ _ _

theorem index_ne_of_id_ne (l : List Player) (i j : Nat) (cp q : Player)
    (hcp : l.get? i = some cp) (hj : l.get? j = some q) (hne : q.id ≠ cp.id) :
    j ≠ i := by
  rintro rfl
  rw [hj] at hcp
  cases hcp
  exact hne rfl

theorem get?_other_of_set (l : List Player) (i j : Nat) (cp q newp : Player)
    (hcp : l.get? i = some cp) (hj : l.get? j = some q) (hne : q.id ≠ cp.id) :
    (l.set i newp).get? j = some q := by
  have hij : i ≠ j := (index_ne_of_id_ne l i j cp q hcp hj hne).symm
  rw [List.get?_set_ne _ _ hij, hj]

theorem raise_size_eq_sub (s : GameState) (ps : PlayerState) (c : Int) :
    (calculate_raise_components s ps c).raise_size
      = (calculate_raise_components s ps c).new_table_bet - s.current_bet := rfl

/-- C2 (confirmed): for every accepted RAISE or ALL_IN, (A) when
`raise_size > 0` and `raise_size ≥ last_raise_size` at action time, the
action sets `last_raise_size := raise_size`, advances the table bet,
commits the chips, and resets `acted_this_street` of every other ACTIVE
player; (B) when `raise_size > 0` but `< last_raise_size` (short all-in),
the table bet still advances and the chips are still committed, but no
other player's `acted_this_street` changes and `last_raise_size` is
unchanged; (C) when `raise_size = 0` (an ALL_IN that is at most a call),
nothing reopens either. -/
theorem c2_reopen_rule (s : GameState) (pid : Nat) (a : PlayerAction)
    (s2 : GameState) (cp : Player)
    (hty : a.action_type = ActionType.RAISE ∨ a.action_type = ActionType.ALL_IN)
    (hcp : get_current_player s = some cp)
    (hok : register_player_action s pid a = Except.ok s2) :
    (0 < (calculate_raise_components s cp.state
            (c2_chips_to_add a.action_type a.amount cp)).raise_size ∧
        s.last_raise_size ≤ (calculate_raise_components s cp.state
            (c2_chips_to_add a.action_type a.amount cp)).raise_size →
      s2.last_raise_size = (calculate_raise_components s cp.state
          (c2_chips_to_add a.action_type a.amount cp)).raise_size ∧
      s2.current_bet = (calculate_raise_components s cp.state
          (c2_chips_to_add a.action_type a.amount cp)).new_table_bet ∧
      s2.pot = s.pot + (calculate_raise_components s cp.state
          (c2_chips_to_add a.action_type a.amount cp)).player_add ∧
      (∀ j q, s.players.get? j = some q → q.id ≠ cp.id →
        q.state.state_type = PlayerStateType.ACTIVE →
        s2.players.get? j
          = some { q with state := { q.state with acted_this_street := false } })) ∧
    (0 < (calculate_raise_components s cp.state
            (c2_chips_to_add a.action_type a.amount cp)).raise_size ∧
        (calculate_raise_components s cp.state
            (c2_chips_to_add a.action_type a.amount cp)).raise_size
          < s.last_raise_size →
      s2.last_raise_size = s.last_raise_size ∧
      s2.current_bet = (calculate_raise_components s cp.state
          (c2_chips_to_add a.action_type a.amount cp)).new_table_bet ∧
      s2.pot = s.pot + (calculate_raise_components s cp.state
          (c2_chips_to_add a.action_type a.amount cp)).player_add ∧
      (∀ j q, s.players.get? j = some q → q.id ≠ cp.id →
        s2.players.get? j = some q)) ∧
    ((calculate_raise_components s cp.state
          (c2_chips_to_add a.action_type a.amount cp)).raise_size = 0 →
      s2.last_raise_size = s.last_raise_size ∧
      s2.current_bet = s.current_bet ∧
      s2.pot = s.pot + (calculate_raise_components s cp.state
          (c2_chips_to_add a.action_type a.amount cp)).player_add ∧
      (∀ j q, s.players.get? j = some q → q.id ≠ cp.id →
        s2.players.get? j = some q)) := by
  have hcp' : s.players.get? s.current_player_index = some cp := hcp
  unfold register_player_action at hok
  rw [hcp] at hok
  dsimp only at hok
  by_cases hid : cp.id ≠ pid
  · rw [if_pos hid] at hok; exact Except.noConfusion hok
  rw [if_neg hid] at hok
  by_cases hact : cp.state.state_type ≠ PlayerStateType.ACTIVE
  · rw [if_pos hact] at hok; exact Except.noConfusion hok
  rw [if_neg hact] at hok
  by_cases hval : a.action_type ∉ get_valid_actions s cp
  · rw [if_pos hval] at hok; exact Except.noConfusion hok
  rw [if_neg hval] at hok
  rcases hty with hty | hty <;> rw [hty] at hok ⊢ <;>
    dsimp only [c2_chips_to_add] at hok ⊢
  · -- RAISE
    cases hr : apply_raise s cp (a.amount.getD 0) with
    | error e => rw [hr] at hok; exact Except.noConfusion hok
    | ok s3 =>
      rw [hr] at hok
      dsimp only at hok
      have hs2 : s2 = set_acted_true s3 := (Except.ok.inj hok).symm
      subst hs2
      unfold apply_raise at hr
      dsimp only at hr
      split_ifs at hr with h1 h2 h3 h4 h5
      all_goals
        first
          | exact Except.noConfusion hr
          | (have hs3 := (Except.ok.inj hr).symm
             subst hs3
             refine ⟨?_, ?_, ?_⟩)
      -- reopen branch, is_all_in = true
      · intro _
        refine ⟨by rw [set_acted_true_lrs], by rw [set_acted_true_current_bet],
          by rw [set_acted_true_pot], ?_⟩
        intro j q hj hne hqact
        have hjne : j ≠ s.current_player_index :=
          index_ne_of_id_ne _ _ _ cp q hcp' hj hne
        rw [set_acted_true_get?_ne]
        · dsimp only
          rw [reset_acted_get?, get?_other_of_set _ _ _ cp q _ hcp' hj hne]
          simp only [Option.map_some']
          rw [if_pos ⟨hne, hqact⟩]
        · exact hjne
      · intro hB
        exact absurd hB.2 (not_lt.mpr h3.2)
      · intro hC
        exact absurd hC h1
      -- reopen branch, is_all_in = false
      · intro _
        refine ⟨by rw [set_acted_true_lrs], by rw [set_acted_true_current_bet],
          by rw [set_acted_true_pot], ?_⟩
        intro j q hj hne hqact
        have hjne : j ≠ s.current_player_index :=
          index_ne_of_id_ne _ _ _ cp q hcp' hj hne
        rw [set_acted_true_get?_ne]
        · dsimp only
          rw [reset_acted_get?, get?_other_of_set _ _ _ cp q _ hcp' hj hne]
          simp only [Option.map_some']
          rw [if_pos ⟨hne, hqact⟩]
        · exact hjne
      · intro hB
        exact absurd hB.2 (not_lt.mpr h3.2)
      · intro hC
        exact absurd hC h1
      -- non-reopen branch, is_all_in = true
      · intro hA
        exact absurd hA h3
      · intro _
        refine ⟨by rw [set_acted_true_lrs], by rw [set_acted_true_current_bet],
          by rw [set_acted_true_pot], ?_⟩
        intro j q hj hne
        have hjne : j ≠ s.current_player_index :=
          index_ne_of_id_ne _ _ _ cp q hcp' hj hne
        rw [set_acted_true_get?_ne]
        · dsimp only
          exact get?_other_of_set _ _ _ cp q _ hcp' hj hne
        · exact hjne
      · intro hC
        exact absurd hC h1
      -- non-reopen branch, is_all_in = false
      · intro hA
        exact absurd hA h3
      · intro _
        refine ⟨by rw [set_acted_true_lrs], by rw [set_acted_true_current_bet],
          by rw [set_acted_true_pot], ?_⟩
        intro j q hj hne
        have hjne : j ≠ s.current_player_index :=
          index_ne_of_id_ne _ _ _ cp q hcp' hj hne
        rw [set_acted_true_get?_ne]
        · dsimp only
          exact get?_other_of_set _ _ _ cp q _ hcp' hj hne
        · exact hjne
      · intro hC
        exact absurd hC h1
  · -- ALL_IN
    have hs2 : s2 = set_acted_true (apply_all_in s cp) := (Except.ok.inj hok).symm
    subst hs2
    unfold apply_all_in
    dsimp only
    split_ifs with hup hre
    -- table bet increased, reopening
    · refine ⟨?_, ?_, ?_⟩
      · intro _
        refine ⟨by rw [set_acted_true_lrs], by rw [set_acted_true_current_bet],
          by rw [set_acted_true_pot], ?_⟩
        intro j q hj hne hqact
        have hjne : j ≠ s.current_player_index :=
          index_ne_of_id_ne _ _ _ cp q hcp' hj hne
        rw [set_acted_true_get?_ne]
        · dsimp only
          rw [reset_acted_get?, get?_other_of_set _ _ _ cp q _ hcp' hj hne]
          simp only [Option.map_some']
          rw [if_pos ⟨hne, hqact⟩]
        · exact hjne
      · intro hB
        exact absurd hB.2 (not_lt.mpr hre.2)
      · intro hC
        have hpos : (0:ℤ)
            < (calculate_raise_components s cp.state cp.state.stack).raise_size := by
          rw [raise_size_eq_sub]
          exact Int.sub_pos.mpr hup
        rw [hC] at hpos
        exact absurd hpos (lt_irrefl 0)
    -- table bet increased, non-reopening (short all-in)
    · refine ⟨?_, ?_, ?_⟩
      · intro hA
        exact absurd hA hre
      · intro _
        refine ⟨by rw [set_acted_true_lrs], by rw [set_acted_true_current_bet],
          by rw [set_acted_true_pot], ?_⟩
        intro j q hj hne
        have hjne : j ≠ s.current_player_index :=
          index_ne_of_id_ne _ _ _ cp q hcp' hj hne
        rw [set_acted_true_get?_ne]
        · dsimp only
          exact get?_other_of_set _ _ _ cp q _ hcp' hj hne
        · exact hjne
      · intro hC
        have hpos : (0:ℤ)
            < (calculate_raise_components s cp.state cp.state.stack).raise_size := by
          rw [raise_size_eq_sub]
          exact Int.sub_pos.mpr hup
        rw [hC] at hpos
        exact absurd hpos (lt_irrefl 0)
    -- table bet not increased
    · have hrs0 : (calculate_raise_components s cp.state cp.state.stack).raise_size ≤ 0 := by
        rw [raise_size_eq_sub]
        have := not_lt.mp hup
        omega
      refine ⟨?_, ?_, ?_⟩
      · intro hA
        exact absurd hA.1 (not_lt.mpr hrs0)
      · intro hB
        exact absurd hB.1 (not_lt.mpr hrs0)
      · intro _
        refine ⟨by rw [set_acted_true_lrs], by rw [set_acted_true_current_bet],
          by rw [set_acted_true_pot], ?_⟩
        intro j q hj hne
        have hjne : j ≠ s.current_player_index :=
          index_ne_of_id_ne _ _ _ cp q hcp' hj hne
        rw [set_acted_true_get?_ne]
        · dsimp only
          exact get?_other_of_set _ _ _ cp q _ hcp' hj hne
        · exact hjne

/-- Witness for C2: the concrete short all-in (raise_size 10 < 20) leaves
`last_raise_size` at 20, advances the table bet to 30, and does not touch
the first player's acted flag. -/
theorem c2_witness :
    c2w_s2.last_raise_size = c2w_s.last_raise_size ∧
    c2w_s2.current_bet = (calculate_raise_components c2w_s c2w_p2.state
      (c2_chips_to_add ActionType.ALL_IN none c2w_p2)).new_table_bet ∧
    c2w_s2.players.get? 0
      = some ⟨0, ⟨some 0, PlayerStateType.ACTIVE, 980, none, 20, 20, true⟩⟩ := by
  have h := c2_reopen_rule c2w_s 2 ⟨some 2, ActionType.ALL_IN, none⟩ c2w_s2 c2w_p2
    (Or.inr rfl) (by decide) (by decide)
  refine ⟨(h.2.1 (by decide)).1, (h.2.1 (by decide)).2.1, ?_⟩
  exact (h.2.1 (by decide)).2.2.2 0
    ⟨0, ⟨some 0, PlayerStateType.ACTIVE, 980, none, 20, 20, true⟩⟩
    (by decide) (by decide)

theorem set_acted_true_get?_self (x : GameState) (pl : Player)
    (h : x.players.get? x.current_player_index = some pl) :
    (set_acted_true x).players.get? x.current_player_index
      = some { pl with state := { pl.state with acted_this_street := true } } := by
  unfold set_acted_true update_current
  rw [h]
  dsimp only
  obtain ⟨hlt, -⟩ := List.get?_eq_some.mp h
  exact List.get?_set_eq_of_lt _ hlt

theorem get?_self_of_set (l : List Player) (i : Nat) (cp newp : Player)
    (hcp : l.get? i = some cp) :
    (l.set i newp).get? i = some newp := by
  obtain ⟨hlt, -⟩ := List.get?_eq_some.mp hcp
  exact List.get?_set_eq_of_lt _ hlt

theorem reset_acted_get?_self (l : List Player) (i : Nat) (cp newp : Player)
    (hcp : l.get? i = some cp) (hid : newp.id = cp.id) :
    (reset_acted_except (l.set i newp) cp.id).get? i = some newp := by
  rw [reset_acted_get?, get?_self_of_set l i cp newp hcp]
  simp [hid]

theorem after_set_get?_self (s : GameState) (cp newp : Player)
    (hcp : s.players.get? s.current_player_index = some cp)
    (X : GameState)
    (hX : X.players = s.players.set s.current_player_index newp)
    (hXi : X.current_player_index = s.current_player_index) :
    (set_acted_true X).players.get? s.current_player_index
      = some { newp with state := { newp.state with acted_this_street := true } } := by
  have hx : X.players.get? X.current_player_index = some newp := by
    rw [hX, hXi]
    exact get?_self_of_set s.players _ cp _ hcp
  have h2 := set_acted_true_get?_self X newp hx
  rw [hXi] at h2
  exact h2

theorem after_reset_get?_self (s : GameState) (cp newp : Player)
    (hcp : s.players.get? s.current_player_index = some cp)
    (X : GameState)
    (hX : X.players
      = reset_acted_except (s.players.set s.current_player_index newp) cp.id)
    (hXi : X.current_player_index = s.current_player_index)
    (hid : newp.id = cp.id) :
    (set_acted_true X).players.get? s.current_player_index
      = some { newp with state := { newp.state with acted_this_street := true } } := by
  have hx : X.players.get? X.current_player_index = some newp := by
    rw [hX, hXi]
    exact reset_acted_get?_self s.players _ cp _ hcp hid
  have h2 := set_acted_true_get?_self X newp hx
  rw [hXi] at h2
  exact h2

/-- C10 (confirmed, implicit claim): (first conjunct) every accepted
chip-committing action moves exactly `min(requested, stack)` chips into
the pot, and whenever the cap binds (`requested ≥ stack`) the actor's
stack becomes 0 and its state ALL_IN; (second conjunct) a RAISE whose
amount reaches the player's stack is accepted whenever it is listed in
`valid_actions` and strictly increases the table bet — the minimum-raise
check does not apply to it. -/
theorem c10_cap_and_all_in_exemption :
    (∀ (s : GameState) (pid : Nat) (a : PlayerAction) (s2 : GameState) (cp : Player),
        get_current_player s = some cp →
        (a.action_type = ActionType.CALL ∨ a.action_type = ActionType.BET ∨
         a.action_type = ActionType.RAISE ∨ a.action_type = ActionType.ALL_IN) →
        register_player_action s pid a = Except.ok s2 →
        s2.pot = s.pot + min (c10_requested a.action_type a.amount s cp) cp.state.stack ∧
        (cp.state.stack ≤ c10_requested a.action_type a.amount s cp →
          ∃ cp2, s2.players.get? s.current_player_index = some cp2 ∧
            cp2.state.stack = 0 ∧ cp2.state.state_type = PlayerStateType.ALL_IN)) ∧
    (∀ (s : GameState) (pid : Nat) (a : PlayerAction) (cp : Player),
        get_current_player s = some cp →
        cp.id = pid →
        cp.state.state_type = PlayerStateType.ACTIVE →
        a.action_type = ActionType.RAISE →
        ActionType.RAISE ∈ get_valid_actions s cp →
        cp.state.stack ≤ a.amount.getD 0 →
        (calculate_raise_components s cp.state (a.amount.getD 0)).raise_size ≠ 0 →
        (register_player_action s pid a).isOk = true) := by
  constructor
  · intro s pid a s2 cp hcp hty hok
    have hcp' : s.players.get? s.current_player_index = some cp := hcp
    unfold register_player_action at hok
    rw [hcp] at hok
    dsimp only at hok
    by_cases hid : cp.id ≠ pid
    · rw [if_pos hid] at hok; exact Except.noConfusion hok
    rw [if_neg hid] at hok
    by_cases hact : cp.state.state_type ≠ PlayerStateType.ACTIVE
    · rw [if_pos hact] at hok; exact Except.noConfusion hok
    rw [if_neg hact] at hok
    by_cases hval : a.action_type ∉ get_valid_actions s cp
    · rw [if_pos hval] at hok; exact Except.noConfusion hok
    rw [if_neg hval] at hok
    rcases hty with hty | hty | hty | hty <;> rw [hty] at hok ⊢ <;>
      dsimp only [c10_requested] at hok ⊢
    · -- CALL
      have hs2 : s2 = set_acted_true (apply_call s cp) := (Except.ok.inj hok).symm
      subst hs2
      unfold apply_call
      dsimp only
      constructor
      · rw [set_acted_true_pot]
      · intro hst
        have hmin : min (s.current_bet - cp.state.current_bet) cp.state.stack
            = cp.state.stack := min_eq_right hst
        rw [hmin, if_pos (show cp.state.stack - cp.state.stack = 0 by omega)]
        refine ⟨_, after_set_get?_self s cp _ hcp' _ rfl rfl, ?_, rfl⟩
        dsimp only
        omega
    · -- BET
      by_cases hb1 : 0 < s.current_bet
      · rw [if_pos hb1] at hok; exact Except.noConfusion hok
      rw [if_neg hb1] at hok
      by_cases hb2 : a.amount.getD 0 < s.min_bet
      · rw [if_pos hb2] at hok; exact Except.noConfusion hok
      rw [if_neg hb2] at hok
      have hs2 : s2 = set_acted_true (apply_bet s cp (a.amount.getD 0)) :=
        (Except.ok.inj hok).symm
      subst hs2
      unfold apply_bet
      dsimp only
      constructor
      · rw [set_acted_true_pot]
      · intro hst
        have hmin : min (a.amount.getD 0) cp.state.stack = cp.state.stack :=
          min_eq_right hst
        rw [hmin, if_pos (show cp.state.stack - cp.state.stack = 0 by omega)]
        refine ⟨_, after_reset_get?_self s cp _ hcp' _ rfl rfl rfl, ?_, rfl⟩
        dsimp only
        omega
    · -- RAISE
      cases hr : apply_raise s cp (a.amount.getD 0) with
      | error e => rw [hr] at hok; exact Except.noConfusion hok
      | ok s3 =>
        rw [hr] at hok
        dsimp only at hok
        have hs2 : s2 = set_acted_true s3 := (Except.ok.inj hok).symm
        subst hs2
        unfold apply_raise at hr
        dsimp only at hr
        split_ifs at hr with h1 h2 h3 h4 h5
        · -- reopen, is_all_in = true
          have hs3 := (Except.ok.inj hr).symm
          subst hs3
          constructor
          · rw [set_acted_true_pot]
            rfl
          · intro hst
            have hpa : (calculate_raise_components s cp.state
                (a.amount.getD 0)).player_add = cp.state.stack := by
              unfold calculate_raise_components
              exact min_eq_right hst
            refine ⟨_, after_reset_get?_self s cp _ hcp' _ rfl rfl rfl, ?_, rfl⟩
            dsimp only
            rw [hpa]
            exact sub_self _
        · -- reopen, is_all_in = false: contradicts the binding cap
          have hs3 := (Except.ok.inj hr).symm
          subst hs3
          constructor
          · rw [set_acted_true_pot]
            rfl
          · intro hst
            exfalso
            have htrue : (calculate_raise_components s cp.state
                (a.amount.getD 0)).is_all_in = true := by
              unfold calculate_raise_components
              dsimp only
              rw [min_eq_right hst]
              simp
            exact h4 htrue
        · -- non-reopen, is_all_in = true
          have hs3 := (Except.ok.inj hr).symm
          subst hs3
          constructor
          · rw [set_acted_true_pot]
            rfl
          · intro hst
            have hpa : (calculate_raise_components s cp.state
                (a.amount.getD 0)).player_add = cp.state.stack := by
              unfold calculate_raise_components
              exact min_eq_right hst
            refine ⟨_, after_set_get?_self s cp _ hcp' _ rfl rfl, ?_, rfl⟩
            dsimp only
            rw [hpa]
            exact sub_self _
        · -- non-reopen, is_all_in = false: contradicts the binding cap
          have hs3 := (Except.ok.inj hr).symm
          subst hs3
          constructor
          · rw [set_acted_true_pot]
            rfl
          · intro hst
            exfalso
            have htrue : (calculate_raise_components s cp.state
                (a.amount.getD 0)).is_all_in = true := by
              unfold calculate_raise_components
              dsimp only
              rw [min_eq_right hst]
              simp
            exact h5 htrue
    · -- ALL_IN
      have hs2 : s2 = set_acted_true (apply_all_in s cp) := (Except.ok.inj hok).symm
      subst hs2
      unfold apply_all_in
      dsimp only
      have hpot : ∀ X : GameState, (set_acted_true X).pot = X.pot := set_acted_true_pot
      split_ifs with hup hre
      · constructor
        · rw [set_acted_true_pot]
          dsimp only
          rw [player_add_all_in, min_self]
        · intro _
          exact ⟨_, after_reset_get?_self s cp _ hcp' _ rfl rfl rfl, rfl, rfl⟩
      · constructor
        · rw [set_acted_true_pot]
          dsimp only
          rw [player_add_all_in, min_self]
        · intro _
          exact ⟨_, after_set_get?_self s cp _ hcp' _ rfl rfl, rfl, rfl⟩
      · constructor
        · rw [set_acted_true_pot]
          dsimp only
          rw [player_add_all_in, min_self]
        · intro _
          exact ⟨_, after_set_get?_self s cp _ hcp' _ rfl rfl, rfl, rfl⟩
  · intro s pid a cp hcp hid hact hty hvalid hstack hrs
    unfold register_player_action
    rw [hcp]
    dsimp only
    rw [if_neg (by simp [hid]), if_neg (by simp [hact]), hty,
      if_neg (by simpa using hvalid)]
    dsimp only
    unfold apply_raise
    dsimp only
    rw [if_neg hrs]
    have hallin : (calculate_raise_components s cp.state
        (a.amount.getD 0)).is_all_in = true := by
      unfold calculate_raise_components
      dsimp only
      rw [min_eq_right hstack]
      simp
    rw [if_neg (by simp [hallin])]
    split_ifs <;> rfl

/-- Witness for C10: the capped call moves `min(20, 5) = 5` chips and puts
the caller all-in; the whole-stack raise is accepted. -/
theorem c10_witness :
    (c10w_s2.pot = c10w_s.pot
      + min (c10_requested ActionType.CALL none c10w_s c10w_p) c10w_p.state.stack) ∧
    (∃ cp2, c10w_s2.players.get? c10w_s.current_player_index = some cp2 ∧
      cp2.state.stack = 0 ∧ cp2.state.state_type = PlayerStateType.ALL_IN) ∧
    (register_player_action c10w_rs 1 ⟨some 1, ActionType.RAISE, some 45⟩).isOk
      = true := by
  have h := c10_cap_and_all_in_exemption.1 c10w_s 0
    ⟨some 0, ActionType.CALL, none⟩ c10w_s2 c10w_p (by decide) (Or.inl rfl) (by decide)
  refine ⟨h.1, h.2 (by decide), ?_⟩
  exact c10_cap_and_all_in_exemption.2 c10w_rs 1
    ⟨some 1, ActionType.RAISE, some 45⟩ c10w_rp (by decide) (by decide) (by decide)
    rfl (by decide) (by decide) (by decide)

/-- Counterexample for C8: the claim says a BET of exactly the player's
remaining stack (here 15, below `min_bet = 20`) is accepted when
`current_bet == 0`; the code rejects it (BET is not even in
`valid_actions`, since the stack is below `min_bet`). -/
theorem c8_counterexample :
    c8w_s.current_bet = 0 ∧
    (c8w_s.players.get? 0).map (fun p => p.state.stack) = some 15 ∧
    register_player_action c8w_s 0 ⟨some 0, ActionType.BET, some 15⟩
      = Except.error c8w_s ∧
    ActionType.BET ∉ get_valid_actions c8w_s
      ⟨0, ⟨some 0, PlayerStateType.ACTIVE, 15, none, 0, 0, false⟩⟩ := by
  refine ⟨rfl, rfl, ?_, by decide⟩
  decide

theorem bet_mem_valid_actions (s : GameState) (cp : Player) :
    ActionType.BET ∈ get_valid_actions s cp ↔
      (s.current_bet = 0 ∧ s.min_bet ≤ cp.state.stack) := by
  unfold get_valid_actions
  dsimp only
  split_ifs <;> simp_all

/-- C8 amended (the claim's all-in exemption does not exist in the code):
with the acting player ACTIVE and current, a BET of amount `amt` is
accepted iff `current_bet = 0`, the player's stack is at least `min_bet`,
and `amt` is at least `min_bet`.  A below-minimum all-in bet is rejected
(the ALL_IN action exists for that purpose). -/
theorem c8_bet_acceptance (s : GameState) (cp : Player) (amt : Int)
    (hcp : get_current_player s = some cp)
    (hact : cp.state.state_type = PlayerStateType.ACTIVE) :
    (register_player_action s cp.id ⟨some cp.id, ActionType.BET, some amt⟩).isOk
        = true ↔
      (s.current_bet = 0 ∧ s.min_bet ≤ cp.state.stack ∧ s.min_bet ≤ amt) := by
  unfold register_player_action
  rw [hcp]
  dsimp only
  rw [if_neg (by simp), if_neg (by simp [hact])]
  by_cases hmem : ActionType.BET ∈ get_valid_actions s cp
  · rw [if_neg (by simpa using hmem)]
    have hc := (bet_mem_valid_actions s cp).mp hmem
    rw [if_neg (by omega)]
    simp only [Option.getD_some]
    by_cases hamt : amt < s.min_bet
    · rw [if_pos hamt]
      simp only [Except.isOk]
      constructor
      · intro hfalse; cases hfalse
      · intro hcond; omega
    · rw [if_neg hamt]
      simp only [Except.isOk]
      constructor
      · intro _; exact ⟨hc.1, hc.2, by omega⟩
      · intro _; rfl
  · rw [if_pos (by simpa using hmem)]
    simp only [Except.isOk]
    constructor
    · intro hfalse; cases hfalse
    · intro hcond
      exact absurd ((bet_mem_valid_actions s cp).mpr ⟨hcond.1, hcond.2.1⟩) hmem

/-- Witness for the amended C8: a 100-chip stack betting 20 with
`min_bet = 20` is accepted. -/
theorem c8_witness :
    (register_player_action
      ⟨[⟨0, ⟨some 0, PlayerStateType.ACTIVE, 100, none, 0, 0, false⟩⟩], 0, [], 0,
        0, 20, 0, 10, 20, 0⟩ 0 ⟨some 0, ActionType.BET, some 20⟩).isOk = true :=
  (c8_bet_acceptance
    ⟨[⟨0, ⟨some 0, PlayerStateType.ACTIVE, 100, none, 0, 0, false⟩⟩], 0, [], 0,
      0, 20, 0, 10, 20, 0⟩
    ⟨0, ⟨some 0, PlayerStateType.ACTIVE, 100, none, 0, 0, false⟩⟩ 20
    (by decide) (by decide)).mpr (by decide)

theorem run_betting_add (m n : Nat) (s : GameState) (sc : Scripts) :
    run_betting (m + n) s sc
      = match run_betting m s sc with
        | LoopResult.completed s2 => LoopResult.completed s2
        | LoopResult.out_of_fuel s2 sc2 => run_betting n s2 sc2 := by
  induction m generalizing s sc with
  | zero =>
    rw [Nat.zero_add]
    rfl
  | succ m ih =>
    have hmn : m + 1 + n = (m + n) + 1 := by omega
    rw [hmn]
    by_cases hc : is_betting_round_complete s = true
    · show run_betting ((m + n) + 1) s sc = _
      simp only [run_betting, hc, if_true]
    · have hc' : is_betting_round_complete s = false := by
        rwa [Bool.not_eq_true] at hc
      show run_betting ((m + n) + 1) s sc = _
      simp only [run_betting, hc', Bool.false_eq_true, if_false]
      exact ih _ _

/-- C1 (code_bug): in the 3-handed 10/20 scenario with BB 10 behind after
posting, the states reached after UTG's call, SB's call and BB's short
all-in show `current_bet = 30` with `last_raise_size` still 20 and all
acted flags still true (the non-reopening part of the claim), but the
PLAYER_ACTION loop never reaches BETTING_ROUND_COMPLETED: UTG and SB are
never given an action to call the extra 10, because
`_advance_to_next_player` only selects ACTIVE players whose
`acted_this_street` is false, and the round-complete predicate keeps
failing on their unmatched bets.  The event loop re-enqueues PLAYER_ACTION
forever. -/
theorem c1_short_all_in_scenario_loops_forever :
    run_betting 2 c1_step0.1 c1_step0.2
      = LoopResult.out_of_fuel c1_stuck c1_stuck_scripts ∧
    c1_stuck.current_bet = 30 ∧
    c1_stuck.last_raise_size = 20 ∧
    c1_stuck.players.map (fun p => p.state.acted_this_street)
      = [true, true, true] ∧
    ∀ fuel, (run_preflop_actions fuel c1_after_blinds c1_scripts).is_completed
      = false := by
  refine ⟨by decide, rfl, rfl, rfl, ?_⟩
  have hnc : is_betting_round_complete c1_stuck = false := by decide
  have hfix : take_action_from_current_player (advance_to_next_player c1_stuck)
      c1_stuck_scripts = (c1_stuck, c1_stuck_scripts) := by decide
  have hloop : ∀ n, run_betting n c1_stuck c1_stuck_scripts
      = LoopResult.out_of_fuel c1_stuck c1_stuck_scripts := by
    intro n
    induction n with
    | zero => rfl
    | succ n ih =>
      show run_betting (n + 1) c1_stuck c1_stuck_scripts = _
      simp only [run_betting, hnc, Bool.false_eq_true, if_false]
      rw [hfix]
      exact ih
  intro fuel
  have hpre : run_preflop_actions fuel c1_after_blinds c1_scripts
      = run_betting fuel c1_step0.1 c1_step0.2 := rfl
  rw [hpre]
  rcases Nat.lt_or_ge fuel 2 with hf | hf
  · interval_cases fuel <;> decide
  · obtain ⟨k, rfl⟩ := Nat.exists_eq_add_of_le hf
    rw [run_betting_add 2 k]
    rw [show run_betting 2 c1_step0.1 c1_step0.2
      = LoopResult.out_of_fuel c1_stuck c1_stuck_scripts from by decide]
    dsimp only
    rw [hloop k]
    rfl

/-- Counterexample for C5: in the code's heads-up hand the button does NOT
post the small blind — the seat left of the button posts 10 and the button
posts 20 — and after the button folds the final stacks are 980 (button)
and 1020 (big blind), not 990/1010 as the claim states. -/
theorem c5_counterexample :
    ((post_blinds c5_initial).players.map (fun p => p.state.current_bet)
      = [20, 10]) ∧
    ((post_blinds c5_initial).players.get? c5_initial.button_position).map
      (fun p => p.state.current_bet) = some 20 ∧
    (20 : Int) ≠ c5_initial.small_blind ∧
    run_preflop_actions 2 (post_blinds c5_initial) c5_scripts
      = LoopResult.completed c5_completed ∧
    (get_players_in_hand c5_completed).length = 1 ∧
    (handle_showdown c5_completed).players.map (fun p => p.state.stack)
      = [980, 1020] ∧
    (handle_showdown c5_completed).players.map (fun p => p.state.stack)
      ≠ [990, 1010] := by
  decide

/-- C5 amended: heads-up the seat left of the button posts the small
blind and the button posts the big blind; the button acts first pre-flop;
when the button folds, the other player wins the 30-chip pot uncontested
and the final stacks are 980 (button) and 1020 (the other player). -/
theorem c5_heads_up_fold_walkover :
    (post_blinds c5_initial).current_player_index = c5_initial.button_position ∧
    ((post_blinds c5_initial).players.get?
        ((c5_initial.button_position + 1) % 2)).map (fun p => p.state.current_bet)
      = some c5_initial.small_blind ∧
    ((post_blinds c5_initial).players.get? c5_initial.button_position).map
      (fun p => p.state.current_bet) = some c5_initial.big_blind ∧
    run_preflop_actions 2 (post_blinds c5_initial) c5_scripts
      = LoopResult.completed c5_completed ∧
    (get_players_in_hand c5_completed).length = 1 ∧
    (handle_showdown c5_completed).players.map (fun p => p.state.stack)
      = [980, 1020] := by
  decide

theorem decay_sum_nonneg (l : List ℚ) (h : ∀ x ∈ l, 0 ≤ x) :
    0 ≤ decay_sum l := by
  induction l with
  | nil => simp [decay_sum]
  | cons x xs ih =>
    have hx := h x (List.mem_cons_self x xs)
    have hxs := ih (fun y hy => h y (List.mem_cons_of_mem x hy))
    simp only [decay_sum]
    positivity

theorem decay_sum_le (l : List ℚ) (h : ∀ x ∈ l, x ≤ 14) :
    decay_sum l ≤ 14 / 99 := by
  induction l with
  | nil => norm_num [decay_sum]
  | cons x xs ih =>
    have hx := h x (List.mem_cons_self x xs)
    have hxs := ih (fun y hy => h y (List.mem_cons_of_mem x hy))
    simp only [decay_sum]
    linarith

theorem mem_insert_lt {α : Type} (lt : α → α → Bool) (a x : α) (l : List α) :
    x ∈ insert_lt lt a l → x = a ∨ x ∈ l := by
  induction l with
  | nil => intro h; simpa [insert_lt] using h
  | cons y ys ih =>
    intro hmem
    by_cases hlt : lt a y = true
    · rw [show insert_lt lt a (y :: ys) = a :: y :: ys from by
        simp [insert_lt, hlt]] at hmem
      rcases List.mem_cons.mp hmem with h2 | h2
      · exact Or.inl h2
      · exact Or.inr h2
    · rw [show insert_lt lt a (y :: ys) = y :: insert_lt lt a ys from by
        simp [insert_lt, hlt]] at hmem
      rcases List.mem_cons.mp hmem with h2 | h2
      · exact Or.inr (by simp [h2])
      · rcases ih h2 with h3 | h3
        · exact Or.inl h3
        · exact Or.inr (List.mem_cons_of_mem y h3)

theorem mem_sort_by_aux {α : Type} (lt : α → α → Bool) (l : List α)
    (acc : List α) (x : α) :
    x ∈ l.foldl (fun acc y => insert_lt lt y acc) acc → x ∈ acc ∨ x ∈ l := by
  induction l generalizing acc with
  | nil => intro h; exact Or.inl h
  | cons y ys ih =>
    intro h
    rcases ih (insert_lt lt y acc) h with h2 | h2
    · rcases mem_insert_lt lt y x acc h2 with h3 | h3
      · exact Or.inr (by simp [h3])
      · exact Or.inl h3
    · exact Or.inr (List.mem_cons_of_mem y h2)

theorem mem_sort_by {α : Type} (lt : α → α → Bool) (l : List α) (x : α) :
    x ∈ sort_by lt l → x ∈ l := by
  intro h
  rcases mem_sort_by_aux lt l [] x h with h2 | h2
  · cases h2
  · exact h2

theorem mem_sort_desc (l : List Int) (x : Int) : x ∈ sort_desc l → x ∈ l :=
  mem_sort_by _ l x

theorem mem_sort_asc (l : List Int) (x : Int) : x ∈ sort_asc l → x ∈ l :=
  mem_sort_by _ l x

theorem list_getD_zero_or_mem (l : List Int) (i : Nat) :
    l.getD i 0 = 0 ∨ l.getD i 0 ∈ l := by
  cases hg : l.get? i with
  | none =>
    left
    show (l.get? i).getD 0 = 0
    rw [hg]
    rfl
  | some a =>
    right
    show (l.get? i).getD 0 ∈ l
    rw [hg]
    exact List.get?_mem hg

theorem list_getLastD_zero_or_mem (l : List Int) :
    (l.getLast?).getD 0 = 0 ∨ (l.getLast?).getD 0 ∈ l := by
  cases hg : l.getLast? with
  | none => left; rfl
  | some a =>
    right
    show (Option.some a).getD 0 ∈ l
    exact List.mem_of_mem_getLast? hg

theorem foldl_preserve {α β : Type} (P : β → Prop) (f : β → α → β) (l : List α)
    (hf : ∀ b a, P b → P (f b a)) :
    ∀ init, P init → P (l.foldl f init) := by
  induction l with
  | nil => intro init h; exact h
  | cons x xs ih =>
    intro init h
    exact ih (f init x) (hf init x h)

theorem straight_info_bounds (u : List Int)
    (h : ∀ x ∈ u, 2 ≤ x ∧ x ≤ 14) :
    0 ≤ (straight_info u).2 ∧ (straight_info u).2 ≤ 14 := by
  have hgetD : ∀ i : Nat, 0 ≤ u.getD i 0 ∧ u.getD i 0 ≤ 14 := by
    intro i
    rcases list_getD_zero_or_mem u i with h0 | hm
    · rw [h0]; exact ⟨le_refl 0, by norm_num⟩
    · exact ⟨le_trans (by norm_num) (h _ hm).1, (h _ hm).2⟩
  unfold straight_info
  split_ifs with hlen hwheel
  · have hscan : (0 ≤ ((List.range (u.length - 4)).foldl
        (fun acc i =>
          if u.getD (i + 4) 0 - u.getD i 0 == 4 then (true, u.getD (i + 4) 0)
          else acc) (false, 0)).2) ∧
        (((List.range (u.length - 4)).foldl
        (fun acc i =>
          if u.getD (i + 4) 0 - u.getD i 0 == 4 then (true, u.getD (i + 4) 0)
          else acc) (false, 0)).2 ≤ 14) := by
      have := foldl_preserve (fun acc : Bool × Int => 0 ≤ acc.2 ∧ acc.2 ≤ 14)
        (fun acc i =>
          if u.getD (i + 4) 0 - u.getD i 0 == 4 then (true, u.getD (i + 4) 0)
          else acc)
        (List.range (u.length - 4))
        (by
          intro b a hb
          dsimp only
          split_ifs with hc
          · exact hgetD (a + 4)
          · exact hb)
        (false, 0) (by norm_num)
      exact this
    dsimp only
    split_ifs with h0
    · norm_num
    · exact hscan
  · dsimp only
    have hscan := foldl_preserve (fun acc : Bool × Int => 0 ≤ acc.2 ∧ acc.2 ≤ 14)
      (fun acc i =>
        if u.getD (i + 4) 0 - u.getD i 0 == 4 then (true, u.getD (i + 4) 0)
        else acc)
      (List.range (u.length - 4))
      (by
        intro b a hb
        dsimp only
        split_ifs with hc
        · exact hgetD (a + 4)
        · exact hb)
      (false, 0) (by norm_num)
    exact hscan
  · exact ⟨le_refl 0, by norm_num⟩

/-! ### Bounds on the per-class check helpers -/

theorem cast_kicker_bounds (numbers ks : List Int)
    (hsub : ∀ x ∈ ks, x ∈ numbers)
    (h : ∀ x ∈ numbers, 2 ≤ x ∧ x ≤ 14) :
    (∀ y ∈ ks.map (fun k : Int => (k : ℚ)), 0 ≤ y) ∧
    (∀ y ∈ ks.map (fun k : Int => (k : ℚ)), y ≤ 14) := by
  constructor
  · intro y hy
    rw [List.mem_map] at hy
    obtain ⟨k, hk, hkeq⟩ := hy
    rw [← hkeq]
    have := (h k (hsub k hk)).1
    have h0 : (0 : Int) ≤ k := by omega
    exact_mod_cast h0
  · intro y hy
    rw [List.mem_map] at hy
    obtain ⟨k, hk, hkeq⟩ := hy
    rw [← hkeq]
    have := (h k (hsub k hk)).2
    exact_mod_cast this

theorem mem_filter_sort_desc_dedup (numbers : List Int) (p : Int → Bool)
    (x : Int) (hx : x ∈ sort_desc (numbers.filter p).dedup) : x ∈ numbers := by
  have h1 := mem_sort_desc _ _ hx
  have h2 := List.mem_dedup.mp h1
  exact List.mem_of_mem_filter h2

theorem last_filter_bounds (numbers : List Int) (p : Int → Bool)
    (h : ∀ x ∈ numbers, 2 ≤ x ∧ x ≤ 14) :
    0 ≤ ((numbers.filter p).getLast?).getD 0 ∧
      ((numbers.filter p).getLast?).getD 0 ≤ 14 := by
  rcases list_getLastD_zero_or_mem (numbers.filter p) with h0 | hm
  · rw [h0]; exact ⟨le_refl 0, by norm_num⟩
  · have := h _ (List.mem_of_mem_filter hm)
    exact ⟨by omega, this.2⟩

theorem getD_sorted_bounds (numbers : List Int) (p : Int → Bool) (i : Nat)
    (h : ∀ x ∈ numbers, 2 ≤ x ∧ x ≤ 14) :
    0 ≤ (sort_desc (numbers.filter p).dedup).getD i 0 ∧
      (sort_desc (numbers.filter p).dedup).getD i 0 ≤ 14 := by
  rcases list_getD_zero_or_mem (sort_desc (numbers.filter p).dedup) i with h0 | hm
  · rw [h0]; exact ⟨le_refl 0, by norm_num⟩
  · have := h _ (mem_filter_sort_desc_dedup numbers p _ hm)
    exact ⟨by omega, this.2⟩

theorem check_pair_bounds (numbers : List Int)
    (h : ∀ x ∈ numbers, 2 ≤ x ∧ x ≤ 14) :
    200 ≤ check_pair numbers ∧ check_pair numbers < 300 := by
  unfold check_pair
  have hpv := last_filter_bounds numbers (fun i => numbers.count i == 2) h
  have hks := cast_kicker_bounds numbers
    (sort_desc ((numbers.filter (fun i => ¬ (numbers.count i == 2))).dedup))
    (fun x hx => mem_filter_sort_desc_dedup numbers _ x hx) h
  have hd1 := decay_sum_nonneg _ hks.1
  have hd2 := decay_sum_le _ hks.2
  have hpv1 : (0:ℚ) ≤ (((numbers.filter
      (fun i => numbers.count i == 2)).getLast?).getD 0 : Int) := by
    exact_mod_cast hpv.1
  have hpv2 : ((((numbers.filter
      (fun i => numbers.count i == 2)).getLast?).getD 0 : Int) : ℚ) ≤ 14 := by
    exact_mod_cast hpv.2
  constructor <;> dsimp only <;> linarith

theorem check_three_bounds (numbers : List Int)
    (h : ∀ x ∈ numbers, 2 ≤ x ∧ x ≤ 14) :
    400 ≤ check_three_of_a_kind numbers ∧ check_three_of_a_kind numbers < 500 := by
  unfold check_three_of_a_kind
  have hpv := last_filter_bounds numbers (fun i => numbers.count i == 3) h
  have hks := cast_kicker_bounds numbers
    (sort_desc ((numbers.filter (fun i => ¬ (numbers.count i == 3))).dedup))
    (fun x hx => mem_filter_sort_desc_dedup numbers _ x hx) h
  have hd1 := decay_sum_nonneg _ hks.1
  have hd2 := decay_sum_le _ hks.2
  have hpv1 : (0:ℚ) ≤ (((numbers.filter
      (fun i => numbers.count i == 3)).getLast?).getD 0 : Int) := by
    exact_mod_cast hpv.1
  have hpv2 : ((((numbers.filter
      (fun i => numbers.count i == 3)).getLast?).getD 0 : Int) : ℚ) ≤ 14 := by
    exact_mod_cast hpv.2
  constructor <;> dsimp only <;> linarith

theorem check_four_bounds (numbers : List Int)
    (h : ∀ x ∈ numbers, 2 ≤ x ∧ x ≤ 14) :
    800 ≤ check_four_of_a_kind numbers ∧ check_four_of_a_kind numbers < 900 := by
  unfold check_four_of_a_kind
  have hpv := last_filter_bounds numbers (fun i => numbers.count i == 4) h
  have hks := cast_kicker_bounds numbers
    (sort_desc ((numbers.filter (fun i => ¬ (numbers.count i == 4))).dedup))
    (fun x hx => mem_filter_sort_desc_dedup numbers _ x hx) h
  have hd1 := decay_sum_nonneg _ hks.1
  have hd2 := decay_sum_le _ hks.2
  have hpv1 : (0:ℚ) ≤ (((numbers.filter
      (fun i => numbers.count i == 4)).getLast?).getD 0 : Int) := by
    exact_mod_cast hpv.1
  have hpv2 : ((((numbers.filter
      (fun i => numbers.count i == 4)).getLast?).getD 0 : Int) : ℚ) ≤ 14 := by
    exact_mod_cast hpv.2
  constructor <;> dsimp only <;> linarith

theorem check_full_house_bounds (numbers : List Int)
    (h : ∀ x ∈ numbers, 2 ≤ x ∧ x ≤ 14) :
    700 ≤ check_full_house numbers ∧ check_full_house numbers < 800 := by
  unfold check_full_house
  have htv := last_filter_bounds numbers (fun i => numbers.count i == 3) h
  have hpv := last_filter_bounds numbers (fun i => numbers.count i == 2) h
  have htv1 : (0:ℚ) ≤ (((numbers.filter
      (fun i => numbers.count i == 3)).getLast?).getD 0 : Int) := by
    exact_mod_cast htv.1
  have htv2 : ((((numbers.filter
      (fun i => numbers.count i == 3)).getLast?).getD 0 : Int) : ℚ) ≤ 14 := by
    exact_mod_cast htv.2
  have hpv1 : (0:ℚ) ≤ (((numbers.filter
      (fun i => numbers.count i == 2)).getLast?).getD 0 : Int) := by
    exact_mod_cast hpv.1
  have hpv2 : ((((numbers.filter
      (fun i => numbers.count i == 2)).getLast?).getD 0 : Int) : ℚ) ≤ 14 := by
    exact_mod_cast hpv.2
  constructor <;> dsimp only <;> linarith

theorem check_two_pair_bounds (numbers : List Int)
    (h : ∀ x ∈ numbers, 2 ≤ x ∧ x ≤ 14) :
    300 ≤ check_two_pair numbers ∧ check_two_pair numbers < 400 := by
  unfold check_two_pair
  have hp0 := getD_sorted_bounds numbers (fun i => numbers.count i == 2) 0 h
  have hp1 := getD_sorted_bounds numbers (fun i => numbers.count i == 2) 1 h
  have hks := cast_kicker_bounds numbers
    (sort_desc ((numbers.filter (fun i => numbers.count i == 1)).dedup))
    (fun x hx => mem_filter_sort_desc_dedup numbers
      (fun i => numbers.count i == 1) x hx) h
  have hd1 := decay_sum_nonneg _ hks.1
  have hd2 := decay_sum_le _ hks.2
  have hp0a : (0:ℚ) ≤ ((sort_desc ((numbers.filter
      (fun i => numbers.count i == 2)).dedup)).getD 0 0 : Int) := by
    exact_mod_cast hp0.1
  have hp0b : (((sort_desc ((numbers.filter
      (fun i => numbers.count i == 2)).dedup)).getD 0 0 : Int) : ℚ) ≤ 14 := by
    exact_mod_cast hp0.2
  have hp1a : (0:ℚ) ≤ ((sort_desc ((numbers.filter
      (fun i => numbers.count i == 2)).dedup)).getD 1 0 : Int) := by
    exact_mod_cast hp1.1
  have hp1b : (((sort_desc ((numbers.filter
      (fun i => numbers.count i == 2)).dedup)).getD 1 0 : Int) : ℚ) ≤ 14 := by
    exact_mod_cast hp1.2
  constructor <;> dsimp only <;> linarith

/-- Every score lies in its class's half-open band
`[class_base, class_base + 100)`: the per-class base plus a value built
from ranks ≤ 14 and kicker decay sums < 1. -/
theorem score_hand_bounds (hand : List Card)
    (hval : ∀ c ∈ hand, c.Valid) :
    class_base (score_hand hand).1 ≤ (score_hand hand).2 ∧
      (score_hand hand).2 < class_base (score_hand hand).1 + 100 := by
  have hrank : ∀ x ∈ hand.map (fun c => c.rank), 2 ≤ x ∧ x ≤ 14 := by
    intro x hx
    rw [List.mem_map] at hx
    obtain ⟨c, hc, rfl⟩ := hx
    exact hval c hc
  have hs := straight_info_bounds (sort_asc (hand.map (fun c => c.rank)).dedup)
    (fun x hx => hrank x (List.mem_dedup.mp (mem_sort_asc _ _ hx)))
  have hs1 : (0:ℚ) ≤ ((straight_info
      (sort_asc (hand.map (fun c => c.rank)).dedup)).2 : Int) := by
    exact_mod_cast hs.1
  have hs2 : (((straight_info
      (sort_asc (hand.map (fun c => c.rank)).dedup)).2 : Int) : ℚ) ≤ 14 := by
    exact_mod_cast hs.2
  have hflush := cast_kicker_bounds (hand.map (fun c => c.rank))
    (sort_desc (hand.map (fun c => c.rank)))
    (fun x hx => mem_sort_desc _ _ hx) hrank
  have hf1 := decay_sum_nonneg _ hflush.1
  have hf2 := decay_sum_le _ hflush.2
  unfold score_hand
  dsimp only
  split_ifs with h1 h2 h3 h4 h5 h6 h7 h8 h9
  · norm_num [class_base, class_rank]
  · dsimp only
    norm_num [class_base, class_rank]
    constructor <;> linarith
  · dsimp only
    have := check_four_bounds (hand.map (fun c => c.rank)) hrank
    norm_num [class_base, class_rank]
    constructor <;> linarith
  · dsimp only
    have := check_full_house_bounds (hand.map (fun c => c.rank)) hrank
    norm_num [class_base, class_rank]
    constructor <;> linarith
  · dsimp only
    norm_num [class_base, class_rank]
    constructor <;> linarith
  · dsimp only
    norm_num [class_base, class_rank]
    constructor <;> linarith
  · dsimp only
    have := check_three_bounds (hand.map (fun c => c.rank)) hrank
    norm_num [class_base, class_rank]
    constructor <;> linarith
  · dsimp only
    have := check_two_pair_bounds (hand.map (fun c => c.rank)) hrank
    norm_num [class_base, class_rank]
    constructor <;> linarith
  · dsimp only
    have := check_pair_bounds (hand.map (fun c => c.rank)) hrank
    norm_num [class_base, class_rank]
    constructor <;> linarith
  · dsimp only
    norm_num [class_base, class_rank]
    constructor <;> linarith

theorem class_base_step (t t' : HandType)
    (h : class_rank t < class_rank t') :
    class_base t + 100 ≤ class_base t' := by
  unfold class_base
  have hq : ((class_rank t : ℚ) + 1) ≤ (class_rank t' : ℚ) := by
    have h2 : class_rank t + 1 ≤ class_rank t' := h
    exact_mod_cast h2
  linarith

/-- C9 (confirmed): over 5-card hands from the 52-card universe, score
bands of distinct classes are disjoint and monotone in the class ordering
HIGH_CARD < PAIR < ... < ROYAL_FLUSH: a hand of a strictly lower class
always scores strictly below a hand of a higher class.  (Proved for all
valid hands, which subsumes the exhaustive C(52,5) statement.) -/
theorem c9_hand_class_separation (h1 h2 : List Card)
    (hlen1 : h1.length = 5) (hlen2 : h2.length = 5)
    (hnd1 : h1.Nodup) (hnd2 : h2.Nodup)
    (hv1 : ∀ c ∈ h1, c.Valid) (hv2 : ∀ c ∈ h2, c.Valid)
    (hlt : class_rank (score_hand h1).1 < class_rank (score_hand h2).1) :
    (score_hand h1).2 < (score_hand h2).2 := by
  have b1 := score_hand_bounds h1 hv1
  have b2 := score_hand_bounds h2 hv2
  have hstep := class_base_step _ _ hlt
  linarith

/-- Witness for C9: a concrete high-card hand scores below a concrete
one-pair hand. -/
theorem c9_witness :
    (score_hand [⟨2, Suit.CLUBS⟩, ⟨3, Suit.DIAMONDS⟩, ⟨5, Suit.HEARTS⟩,
        ⟨7, Suit.SPADES⟩, ⟨9, Suit.CLUBS⟩]).2
      < (score_hand [⟨2, Suit.CLUBS⟩, ⟨2, Suit.DIAMONDS⟩, ⟨5, Suit.HEARTS⟩,
        ⟨7, Suit.SPADES⟩, ⟨9, Suit.CLUBS⟩]).2 :=
  c9_hand_class_separation _ _ (by decide) (by decide) (by decide) (by decide)
    (by decide) (by decide) (by decide)

/-! ## C4: remainder chips at showdown -/

theorem foldr_max_le (l : List ℚ) (b : ℚ) (hb : 0 ≤ b)
    (h : ∀ x ∈ l, x ≤ b) : l.foldr max 0 ≤ b := by
  induction l with
  | nil => simpa using hb
  | cons x xs ih =>
    simp only [List.foldr_cons]
    exact max_le (h x (List.mem_cons_self x xs))
      (ih fun y hy => h y (List.mem_cons_of_mem _ hy))

theorem foldr_max_eq (l : List ℚ) (b : ℚ) (hb : 0 ≤ b) (hmem : b ∈ l)
    (hle : ∀ x ∈ l, x ≤ b) : l.foldr max 0 = b := by
  induction l with
  | nil => cases hmem
  | cons x xs ih =>
    simp only [List.foldr_cons]
    rcases List.mem_cons.mp hmem with rfl | hmem2
    · have hxs := foldr_max_le xs b hb
        (fun y hy => hle y (List.mem_cons_of_mem _ hy))
      exact max_eq_left hxs
    · have hx := hle x (List.mem_cons_self x xs)
      rw [ih hmem2 (fun y hy => hle y (List.mem_cons_of_mem _ hy))]
      exact max_eq_right hx

theorem mem_combinations_subset {α : Type} (l : List α) :
    ∀ (k : Nat) (c : List α), c ∈ combinations k l → ∀ x ∈ c, x ∈ l := by
  induction l with
  | nil =>
    intro k c hc x hx
    cases k with
    | zero =>
      simp only [combinations, List.mem_singleton] at hc
      subst hc
      cases hx
    | succ k => cases hc
  | cons y ys ih =>
    intro k c hc x hx
    cases k with
    | zero =>
      simp only [combinations, List.mem_singleton] at hc
      subst hc
      cases hx
    | succ k =>
      simp only [combinations, List.mem_append] at hc
      rcases hc with hc | hc
      · rw [List.mem_map] at hc
        obtain ⟨c2, hc2, rfl⟩ := hc
        rcases List.mem_cons.mp hx with rfl | hx2
        · exact List.mem_cons_self x ys
        · exact List.mem_cons_of_mem y (ih k c2 hc2 x hx2)
      · exact List.mem_cons_of_mem y (ih (k + 1) c hc x hx)

set_option maxHeartbeats 2000000 in
theorem score_hand_royal_eq (hand : List Card)
    (h : (score_hand hand).1 = HandType.ROYAL_FLUSH) :
    (score_hand hand).2 = 1000 := by
  unfold score_hand at h ⊢
  dsimp only at h ⊢
  split_ifs at h ⊢
  all_goals dsimp only at h ⊢

theorem class_base_ne_royal (t : HandType) (h : t ≠ HandType.ROYAL_FLUSH) :
    class_base t + 100 ≤ 1000 := by
  cases t <;> first | (exact absurd rfl h) | norm_num [class_base, class_rank]

theorem score_hand_le_1000 (hand : List Card) (hval : ∀ c ∈ hand, c.Valid) :
    (score_hand hand).2 ≤ 1000 := by
  by_cases hroyal : (score_hand hand).1 = HandType.ROYAL_FLUSH
  · rw [score_hand_royal_eq hand hroyal]
  · have hb := score_hand_bounds hand hval
    have := class_base_ne_royal _ hroyal
    linarith

theorem c4_find_highest_p0 :
    find_highest_scoring_hand [⟨2, Suit.CLUBS⟩, ⟨3, Suit.CLUBS⟩] c4_board
      = 1000 := by
  unfold find_highest_scoring_hand
  apply foldr_max_eq
  · norm_num
  · rw [List.mem_map]
    exact ⟨c4_board, by decide, by decide⟩
  · intro x hx
    rw [List.mem_map] at hx
    obtain ⟨c, hc, rfl⟩ := hx
    apply score_hand_le_1000
    intro card hcard
    have hmem := mem_combinations_subset _ 5 c hc card hcard
    have hall : ∀ x ∈ ([⟨2, Suit.CLUBS⟩, ⟨3, Suit.CLUBS⟩] ++ c4_board),
        Card.Valid x := by decide
    exact hall card hmem

theorem c4_find_highest_p1 :
    find_highest_scoring_hand [⟨2, Suit.DIAMONDS⟩, ⟨3, Suit.DIAMONDS⟩] c4_board
      = 1000 := by
  unfold find_highest_scoring_hand
  apply foldr_max_eq
  · norm_num
  · rw [List.mem_map]
    exact ⟨c4_board, by decide, by decide⟩
  · intro x hx
    rw [List.mem_map] at hx
    obtain ⟨c, hc, rfl⟩ := hx
    apply score_hand_le_1000
    intro card hcard
    have hmem := mem_combinations_subset _ 5 c hc card hcard
    have hall : ∀ x ∈ ([⟨2, Suit.DIAMONDS⟩, ⟨3, Suit.DIAMONDS⟩] ++ c4_board),
        Card.Valid x := by decide
    exact hall card hmem

/-- C4 (code_bug): at a two-way tie with pot 101 and the button at seat 0,
the code awards the odd chip to seat 0 — the button itself — because
`_handle_showdown` sorts winners by absolute seat index, not starting left
of the button.  The claim (and the code's own comment, "closest to button
gets remainder chips") says the extra chip goes to the seat left of the
button, which is seat 1 here. -/
theorem c4_remainder_goes_to_lowest_seat_not_left_of_button :
    handle_showdown c4_state = c4_final ∧
    (c4_final.players.map (fun p => p.state.stack) = [51, 50]) ∧
    ((c4_state.button_position + 1) % c4_state.players.length = 1) ∧
    c4_state.pot = 101 := by
  refine ⟨?_, by decide, by decide, rfl⟩
  have hps : (get_players_in_hand c4_state).filterMap
      (fun p => p.state.holding.map
        (fun h => (p, find_highest_scoring_hand h c4_state.community_cards)))
      = [(c4_p0, (1000 : ℚ)), (c4_p1, (1000 : ℚ))] := by
    have e1 : (get_players_in_hand c4_state).filterMap
        (fun p => p.state.holding.map
          (fun h => (p, find_highest_scoring_hand h c4_state.community_cards)))
        = [(c4_p0, find_highest_scoring_hand
              [⟨2, Suit.CLUBS⟩, ⟨3, Suit.CLUBS⟩] c4_board),
           (c4_p1, find_highest_scoring_hand
              [⟨2, Suit.DIAMONDS⟩, ⟨3, Suit.DIAMONDS⟩] c4_board)] := rfl
    rw [e1, c4_find_highest_p0, c4_find_highest_p1]
  unfold handle_showdown
  dsimp only
  rw [if_neg (by decide)]
  rw [hps]
  decide

/-! ## C7: a rejected action leaves the state unchanged -/

theorem apply_raise_error_eq (s : GameState) (cp : Player) (amount : Int)
    (e : GameState) (h : apply_raise s cp amount = Except.error e) : e = s := by
  unfold apply_raise at h
  dsimp only at h
  split_ifs at h with h1 h2
  · exact (Except.error.inj h).symm
  · exact (Except.error.inj h).symm

/-- C7 (confirmed): whenever `Game._register_player_action` rejects an
action (raises `ValueError`), no part of the game state has been mutated:
the state as of the raise is exactly the state the call started from. -/
theorem c7_rejected_action_leaves_state_unchanged (s : GameState)
    (player_id : Nat) (action : PlayerAction) (e : GameState)
    (h : register_player_action s player_id action = Except.error e) : e = s := by
  unfold register_player_action at h
  cases hg : get_current_player s with
  | none =>
    rw [hg] at h
    dsimp only at h
    exact (Except.error.inj h).symm
  | some cp =>
    rw [hg] at h
    dsimp only at h
    by_cases hid : cp.id ≠ player_id
    · rw [if_pos hid] at h
      exact (Except.error.inj h).symm
    · rw [if_neg hid] at h
      by_cases hact : cp.state.state_type ≠ PlayerStateType.ACTIVE
      · rw [if_pos hact] at h
        exact (Except.error.inj h).symm
      · rw [if_neg hact] at h
        by_cases hval : action.action_type ∉ get_valid_actions s cp
        · rw [if_pos hval] at h
          exact (Except.error.inj h).symm
        · rw [if_neg hval] at h
          cases ha : action.action_type <;> rw [ha] at h <;> dsimp only at h
          · exact Except.noConfusion h
          · by_cases hchk : cp.state.current_bet ≠ s.current_bet
            · rw [if_pos hchk] at h
              exact (Except.error.inj h).symm
            · rw [if_neg hchk] at h
              exact Except.noConfusion h
          · exact Except.noConfusion h
          · by_cases hb1 : 0 < s.current_bet
            · rw [if_pos hb1] at h
              exact (Except.error.inj h).symm
            · rw [if_neg hb1] at h
              by_cases hb2 : action.amount.getD 0 < s.min_bet
              · rw [if_pos hb2] at h
                exact (Except.error.inj h).symm
              · rw [if_neg hb2] at h
                exact Except.noConfusion h
          · cases hr : apply_raise s cp (action.amount.getD 0) with
            | error e2 =>
              rw [hr] at h
              dsimp only at h
              have he : e2 = e := Except.error.inj h
              rw [← he]
              exact apply_raise_error_eq _ _ _ _ hr
            | ok s2 =>
              rw [hr] at h
              exact Except.noConfusion h
          · exact Except.noConfusion h

/-- Witness for C7: a concrete rejected action (a CHECK facing an
unmatched bet) whose error state is the unchanged input state. -/
theorem c7_witness :
    register_player_action
      ⟨[⟨0, ⟨some 0, PlayerStateType.ACTIVE, 100, none, 0, 0, false⟩⟩], 0, [], 0,
        20, 20, 20, 10, 20, 0⟩ 0 ⟨some 0, ActionType.CHECK, none⟩
    = Except.error
      ⟨[⟨0, ⟨some 0, PlayerStateType.ACTIVE, 100, none, 0, 0, false⟩⟩], 0, [], 0,
        20, 20, 20, 10, 20, 0⟩ := by
  have hex : ∃ e, register_player_action
      ⟨[⟨0, ⟨some 0, PlayerStateType.ACTIVE, 100, none, 0, 0, false⟩⟩], 0, [], 0,
        20, 20, 20, 10, 20, 0⟩ 0 ⟨some 0, ActionType.CHECK, none⟩
      = Except.error e := ⟨_, rfl⟩
  obtain ⟨e, he⟩ := hex
  rw [he, c7_rejected_action_leaves_state_unchanged _ _ _ _ he]

end Maverick
